import Mathlib

/-!
# Last-touch attribution (`cmd/cli/main.go`)

A shallow embedding of the attribution program: the event records, the merge of the
two event logs into one timeline, the single forward pass that credits each sale to
its user's latest exposure, and the table of aggregates that is written out.

Conventions of the embedding.

* `time.Time` values are whole seconds (`Int`); `Timestamp.After` is `<` read backwards.
* A Go `map[string]T` is a `Finmap` keyed by `String`; `map[string]struct{}` is a
  `Finset String`.
* `float64` amounts are an arbitrary carrier `α` with `0` and `+`.  Statements about
  exact sums take `α` to be a commutative monoid (for instance `ℚ`).
* Functions of the Go standard library (`strconv.ParseFloat`, `strconv.FormatFloat`,
  `time.Parse`, `sort.Slice`, reading a CSV file, the visiting order of `range` over a
  map) are parameters of the definitions that call them.  Where a statement needs one of
  them run on a concrete input, a model of it is given and named as such (`goSortSlice`,
  `parseGoFloat`, `formatGoFloat`).
-/

namespace Attributer

/-! ## Data model -/

/-- The `Record` struct: one event of either log.  `Typ` is the Go field `Type`. -/
structure Record where
  UserID : String
  Timestamp : Int
  Typ : String
  Value : String
deriving DecidableEq, Repr

/-- A Go `map[string]β`. -/
abbrev GoMap (β : Type) : Type := Finmap (fun _ : String => β)

/-- The `Dimension` struct: the aggregate of one exposure value. -/
structure Dimension (α : Type) where
  Value : String
  Purchasers : Finset String
  TotalSales : α
deriving DecidableEq

/-- Ways in which `run` stops early: an `error` value that is returned, or a run-time panic. -/
inductive Failure where
  | readError (filename : String)
  | timeParseError (text : String)
  | parseFloatError (text : String)
  | createError
  | writeError
  | panic
deriving DecidableEq, Repr

/-- The local variables of `run` that the attribution loop reads and writes. -/
structure LoopState (α : Type) where
  summary : GoMap (Dimension α)
  overall : Dimension α
  noAdSalesCount : Nat
  userLatestExposures : GoMap String
deriving DecidableEq

/-! ## The attribution loop (`run`, lines 59-106) -/

/-- The state before the first iteration: empty `summary`, the reserved `overall`
aggregate, a zero counter and no recorded exposure. -/
def initState {α : Type} [Zero α] : LoopState α :=
  { summary := ∅
    overall := { Value := "overall", Purchasers := ∅, TotalSales := 0 }
    noAdSalesCount := 0
    userLatestExposures := ∅ }

/-- The value of `impression` after `impression, ok := userLatestExposures[r.UserID]`
followed by `if !ok { impression = "" }`. -/
def lookupImpression (m : GoMap String) (u : String) : String :=
  match m.lookup u with
  | some v => v
  | none => ""

/-- The value of `dimension` after `dimension, ok := summary[impression]` followed by the
creation of a fresh aggregate when `!ok`. -/
def fetchOrCreate {α : Type} [Zero α] (m : GoMap (Dimension α)) (impression : String) :
    Dimension α :=
  match m.lookup impression with
  | some d => d
  | none => { Value := impression, Purchasers := ∅, TotalSales := 0 }

/-- One iteration of `for _, r := range records`. -/
def step {α : Type} [Zero α] [Add α] (parseFloat : String → Option α)
    (s : LoopState α) (r : Record) : Except Failure (LoopState α) :=
  if r.Typ = "exposure" then
    .ok { s with userLatestExposures := s.userLatestExposures.insert r.UserID r.Value }
  else
    match parseFloat r.Value with
    | none => .error (Failure.parseFloatError r.Value)
    | some saleVal =>
      let impression := lookupImpression s.userLatestExposures r.UserID
      if impression = "" then
        .ok { s with noAdSalesCount := s.noAdSalesCount + 1 }
      else
        let overall : Dimension α :=
          { s.overall with
            TotalSales := s.overall.TotalSales + saleVal
            Purchasers := insert r.UserID s.overall.Purchasers }
        let dimension := fetchOrCreate s.summary impression
        let dimension : Dimension α :=
          { dimension with
            Purchasers := insert r.UserID dimension.Purchasers
            TotalSales := dimension.TotalSales + saleVal }
        .ok { s with overall := overall, summary := s.summary.insert impression dimension }

/-- The loop from an arbitrary state: the first failing iteration ends it. -/
def loopFrom {α : Type} [Zero α] [Add α] (parseFloat : String → Option α) :
    LoopState α → List Record → Except Failure (LoopState α)
  | s, [] => .ok s
  | s, r :: rs =>
    match step parseFloat s r with
    | .error e => .error e
    | .ok s' => loopFrom parseFloat s' rs

/-- The attribution pass over a timeline, from the initial state. -/
def attributionLoop {α : Type} [Zero α] [Add α] (parseFloat : String → Option α)
    (records : List Record) : Except Failure (LoopState α) :=
  loopFrom parseFloat initState records

/-! ## The timeline merge (`run`, lines 51-57) -/

/-- The closure handed to `sort.Slice`, on elements: `less(i, j)` is
`records[j].Timestamp.After(records[i].Timestamp)`. -/
def timelineLess (a b : Record) : Bool := decide (a.Timestamp < b.Timestamp)

/-- The timeline: both logs appended, exposures first, then sorted by `sortSlice`. -/
def mergeTimeline (sortSlice : (Record → Record → Bool) → List Record → List Record)
    (impressions sales : List Record) : List Record :=
  sortSlice timelineLess (impressions ++ sales)

/-- What the `sort` package asks of a `less` function: a strict weak ordering. -/
structure LessOk (less : Record → Record → Bool) : Prop where
  irrefl : ∀ a, less a a = false
  trans : ∀ a b c, less a b = true → less b c = true → less a c = true
  negTrans : ∀ a b c, less a b = false → less b c = false → less a c = false

/-- What the `sort` package promises of `sort.Slice`: the slice is rearranged, and
afterwards no element is `less` than one placed before it.  The package does not
promise stability. -/
def SortContract (sortSlice : (Record → Record → Bool) → List Record → List Record) : Prop :=
  ∀ less xs, LessOk less →
    (sortSlice less xs).Perm xs ∧ (sortSlice less xs).Pairwise (fun a b => less b a = false)

/-- Insertion of `x` into a sorted list, after the elements `less` than `x` and before
every other element. -/
def orderedInsert (less : Record → Record → Bool) (x : Record) : List Record → List Record
  | [] => [x]
  | y :: ys => if less y x then y :: orderedInsert less x ys else x :: y :: ys

/-- The stable sort by `less`: elements that compare equal keep their input order. -/
def stableSort (less : Record → Record → Bool) : List Record → List Record
  | [] => []
  | x :: xs => orderedInsert less x (stableSort less xs)

/-- A sort that is not stable: the stable sort of the reversed input, which leaves
elements that compare equal in reverse input order. -/
def reverseThenSort (less : Record → Record → Bool) (xs : List Record) : List Record :=
  stableSort less xs.reverse

/-! ## The report table (`run`, lines 108-114) -/

/-- `strconv.Itoa` on the length of a map. -/
def itoa (n : Nat) : String := toString n

/-- The header row. -/
def headerRow : List String := ["dimension", "value", "num_purchases", "total_sales"]

/-- The row appended for `overall`. -/
def overallRow {α : Type} (formatFloat : α → String) (overall : Dimension α) : List String :=
  ["overall", "overall", itoa overall.Purchasers.card, formatFloat overall.TotalSales]

/-- The row appended for the entry `k, d` of `summary`. -/
def dimensionRow {α : Type} (formatFloat : α → String) (k : String) (d : Dimension α) :
    List String :=
  [k, k, itoa d.Purchasers.card, formatFloat d.TotalSales]

/-- A possible visiting order of `for k, d := range m`: every key once. -/
def IsRangeOrder {β : Type} (order : List String) (m : GoMap β) : Prop :=
  order.Nodup ∧ ∀ k, k ∈ order ↔ k ∈ m

/-- The value of `out` after the header, the overall row and the rows of `summary`
visited in `order`. -/
def buildTable {α : Type} (formatFloat : α → String) (order : List String)
    (overall : Dimension α) (summary : GoMap (Dimension α)) : List (List String) :=
  headerRow :: overallRow formatFloat overall ::
    order.filterMap (fun k => (summary.lookup k).map (dimensionRow formatFloat k))

/-! ## Loading (`ParseCSV`, `ParseFileIntoRecords`) -/

/-- `ParseCSV`: `readAll` stands for opening the file and `csv.NewReader(f).ReadAll()`;
`lines[1:]` panics when there is no line at all. -/
def ParseCSV (readAll : String → Option (List (List String))) (filename : String) :
    Except Failure (List (List String)) :=
  match readAll filename with
  | none => .error (Failure.readError filename)
  | some [] => .error Failure.panic
  | some (_ :: rest) => .ok rest

/-- The body of the loop of `ParseFileIntoRecords` for one line: `l[1]` is read first,
then `l[0]` and `l[2]`; an index out of range panics. -/
def parseLine (parseTime : String → Option Int) (recordType : String) (l : List String) :
    Except Failure Record :=
  match l[1]? with
  | none => .error Failure.panic
  | some t =>
    match parseTime t with
    | none => .error (Failure.timeParseError t)
    | some ts =>
      match l[0]?, l[2]? with
      | some u, some v => .ok { UserID := u, Timestamp := ts, Typ := recordType, Value := v }
      | _, _ => .error Failure.panic

/-- The loop of `ParseFileIntoRecords`, `records` being the slice built so far. -/
def parseLines (parseTime : String → Option Int) (recordType : String) :
    List (List String) → List Record → Except Failure (List Record)
  | [], records => .ok records
  | l :: ls, records =>
    match parseLine parseTime recordType l with
    | .error e => .error e
    | .ok r => parseLines parseTime recordType ls (records ++ [r])

/-- `ParseFileIntoRecords`. -/
def ParseFileIntoRecords (readAll : String → Option (List (List String)))
    (parseTime : String → Option Int) (filename recordType : String) :
    Except Failure (List Record) :=
  match ParseCSV readAll filename with
  | .error e => .error e
  | .ok lines => parseLines parseTime recordType lines []

/-! ## `run` -/

/-- The library functions and the environment that `run` depends on. -/
structure Lib (α : Type) where
  readAll : String → Option (List (List String))
  parseTime : String → Option Int
  parseFloat : String → Option α
  formatFloat : α → String
  sortSlice : (Record → Record → Bool) → List Record → List Record
  rangeOrder : GoMap (Dimension α) → List String
  createOk : Bool
  writeOk : Bool

/-- What a call of `run` leaves behind: the failure it stopped with (if any), the rows
appended to `out`, whether `summary.csv` was created, and the rows written to it. -/
structure Outcome where
  failure : Option Failure
  out : List (List String)
  created : Bool
  written : List (List String)
deriving DecidableEq, Repr

/-- An early return before any row is built. -/
def Outcome.early (e : Failure) : Outcome :=
  { failure := some e, out := [], created := false, written := [] }

/-- The part of `run` after the timeline is sorted: the attribution loop, the table,
and the output file. -/
def runTimeline {α : Type} [Zero α] [Add α] (lib : Lib α) (records : List Record) : Outcome :=
  match attributionLoop lib.parseFloat records with
  | .error e => Outcome.early e
  | .ok s =>
    let out := buildTable lib.formatFloat (lib.rangeOrder s.summary) s.overall s.summary
    if lib.createOk then
      if lib.writeOk then { failure := none, out := out, created := true, written := out }
      else { failure := some Failure.writeError, out := out, created := true, written := [] }
    else { failure := some Failure.createError, out := out, created := false, written := [] }

/-- The function `run`. -/
def run {α : Type} [Zero α] [Add α] (lib : Lib α) : Outcome :=
  match ParseFileIntoRecords lib.readAll lib.parseTime "ad_exposures.csv" "exposure" with
  | .error e => Outcome.early e
  | .ok impressions =>
    match ParseFileIntoRecords lib.readAll lib.parseTime "sales_data.csv" "sale" with
    | .error e => Outcome.early e
    | .ok sales => runTimeline lib (mergeTimeline lib.sortSlice impressions sales)

/-! ## The attribution rule in the words of the specification -/

/-- The payload of the most recent exposure event of user `u` among `earlier`, the events
that precede a sale in the timeline; `none` when `u` has no exposure there. -/
def lastExposure (earlier : List Record) (u : String) : Option String :=
  (earlier.reverse.find? (fun r => decide (r.Typ = "exposure" ∧ r.UserID = u))).map Record.Value

/-- Whether the event at position `i` of the timeline is a sale whose user's most recent
earlier exposure carries the non-empty value `v`. -/
def creditedAt (records : List Record) (v : String) (i : Nat) : Bool :=
  match records[i]? with
  | some r =>
    decide (r.Typ = "sale" ∧ v ≠ "" ∧ lastExposure (records.take i) r.UserID = some v)
  | none => false

/-- The sale events attributed to `v`, in timeline order. -/
def creditedSales (records : List Record) (v : String) : List Record :=
  (List.range records.length).filterMap
    (fun i => if creditedAt records v i then records[i]? else none)

/-- Whether the event at position `i` is a sale attributed to some dimension. -/
def attributedAt (records : List Record) (i : Nat) : Bool :=
  match records[i]? with
  | some r =>
    match lastExposure (records.take i) r.UserID with
    | some v => decide (r.Typ = "sale" ∧ v ≠ "")
    | none => false
  | none => false

/-- All attributed sale events, in timeline order. -/
def attributedSales (records : List Record) : List Record :=
  (List.range records.length).filterMap
    (fun i => if attributedAt records i then records[i]? else none)

/-- Whether the event at position `i` is a sale whose user has no earlier exposure, or
whose most recent earlier exposure has the empty payload. -/
def unattributedAt (records : List Record) (i : Nat) : Bool :=
  match records[i]? with
  | some r =>
    decide (r.Typ = "sale" ∧
      (lastExposure (records.take i) r.UserID = none ∨
        lastExposure (records.take i) r.UserID = some ""))
  | none => false

/-- The amount of a sale event; `0` stands in where the text does not parse. -/
def amountOf {α : Type} [Zero α] (parseFloat : String → Option α) (r : Record) : α :=
  match parseFloat r.Value with
  | some a => a
  | none => 0

/-- Every event is an exposure or a sale, as in every timeline `run` builds. -/
def WellKinded (records : List Record) : Prop :=
  ∀ r ∈ records, r.Typ = "exposure" ∨ r.Typ = "sale"

/-- Every sale amount of the timeline parses. -/
def AllAmountsParse {α : Type} (parseFloat : String → Option α) (records : List Record) :
    Prop :=
  ∀ r ∈ records, r.Typ = "sale" → (parseFloat r.Value).isSome = true

/-- The total held for dimension `v`: that of its aggregate, `0` when there is none. -/
def totalOf {α : Type} [Zero α] (s : LoopState α) (v : String) : α :=
  match s.summary.lookup v with
  | some d => d.TotalSales
  | none => 0

/-- The purchaser set held for dimension `v`, empty when there is no aggregate. -/
def purchasersOf {α : Type} (s : LoopState α) (v : String) : Finset String :=
  match s.summary.lookup v with
  | some d => d.Purchasers
  | none => ∅

/-- The amounts of a list of sale events, added up from `0` in list order, the way the
loop adds them. -/
def addUp {α : Type} [Zero α] [Add α] (parseFloat : String → Option α) (sales : List Record) : α :=
  (sales.map (amountOf parseFloat)).foldl (fun x y => x + y) 0

/-- The number of unattributed sale events of the timeline. -/
def unattributedCount (records : List Record) : Nat :=
  (List.range records.length).countP (unattributedAt records)

/-- The loop state `s` agrees with the specification's reading of the events `pre`
processed so far. -/
structure Tracks {α : Type} [Zero α] [Add α] (parseFloat : String → Option α)
    (pre : List Record) (s : LoopState α) : Prop where
  exposures : ∀ u, s.userLatestExposures.lookup u = lastExposure pre u
  totals : ∀ v, totalOf s v = addUp parseFloat (creditedSales pre v)
  purchasers : ∀ v, purchasersOf s v = ((creditedSales pre v).map Record.UserID).toFinset
  keys : ∀ v, v ∈ s.summary ↔ creditedSales pre v ≠ []
  overallTotal : s.overall.TotalSales = addUp parseFloat (attributedSales pre)
  overallPurchasers :
    s.overall.Purchasers = ((attributedSales pre).map Record.UserID).toFinset
  counter : s.noAdSalesCount = unattributedCount pre

/-- The union of the purchaser sets of all dimension aggregates in `summary`. -/
def unionOfPurchasers {α : Type} (s : LoopState α) : Finset String :=
  s.summary.keys.biUnion (purchasersOf s)

/-- The sum of `TotalSales` over all dimension aggregates in `summary`. -/
def sumOfTotals {α : Type} [AddCommMonoid α] (s : LoopState α) : α :=
  Finset.sum s.summary.keys (totalOf s)

/-! ## Sample data

A parser for plain decimal numerals (an optional sign, digits, an optional point and
more digits, at least one digit in all), texts that `strconv.ParseFloat` accepts as well,
a rendering with two decimals, and a small timeline. -/

/-- The value of a decimal digit. -/
def digitValue (c : Char) : Option Nat :=
  if c.isDigit then some (c.toNat - 48) else none

/-- The number written by a string of digits, continuing from `acc`. -/
def digitsValue : List Char → Nat → Option Nat
  | [], acc => some acc
  | c :: cs, acc =>
    match digitValue c with
    | some d => digitsValue cs (10 * acc + d)
    | none => none

/-- An unsigned decimal numeral. -/
def parseUnsigned (cs : List Char) : Option ℚ :=
  let whole := cs.takeWhile (fun c => c != '.')
  match cs.dropWhile (fun c => c != '.') with
  | [] => if whole = [] then none else (digitsValue whole 0).map (fun n => (n : ℚ))
  | _ :: frac =>
    if whole = [] ∧ frac = [] then none
    else
      match digitsValue whole 0, digitsValue frac 0 with
      | some n, some m => some ((n : ℚ) + (m : ℚ) / (10 : ℚ) ^ frac.length)
      | _, _ => none

/-- A signed decimal numeral. -/
def parseDecimal (text : String) : Option ℚ :=
  match text.toList with
  | '-' :: cs => (parseUnsigned cs).map (fun q => -q)
  | '+' :: cs => parseUnsigned cs
  | cs => parseUnsigned cs

/-- A timeline: `U2` buys before any exposure; `U1` sees `A` and buys; `U3` sees `A`,
then `B`, and buys twice; `U1` then sees `B` and buys again. -/
def sampleTimeline : List Record :=
  [ { UserID := "U2", Timestamp := 32400, Typ := "sale", Value := "30.00" },
    { UserID := "U1", Timestamp := 36000, Typ := "exposure", Value := "A" },
    { UserID := "U1", Timestamp := 39600, Typ := "sale", Value := "50.00" },
    { UserID := "U3", Timestamp := 40000, Typ := "exposure", Value := "A" },
    { UserID := "U3", Timestamp := 41000, Typ := "exposure", Value := "B" },
    { UserID := "U3", Timestamp := 42000, Typ := "sale", Value := "10.00" },
    { UserID := "U3", Timestamp := 43000, Typ := "sale", Value := "2.50" },
    { UserID := "U1", Timestamp := 44000, Typ := "exposure", Value := "B" },
    { UserID := "U1", Timestamp := 45000, Typ := "sale", Value := "4.25" } ]

/-- The natural number nearest to `x`, for `0 ≤ x`; a tie goes to the even neighbour. -/
def roundHalfEven (x : ℚ) : Nat :=
  let lower : Nat := (Rat.floor x).toNat
  if x - lower < 1 / 2 then lower
  else if 1 / 2 < x - lower then lower + 1
  else if lower % 2 = 0 then lower else lower + 1

/-- A rendering with two decimals in the manner of `strconv.FormatFloat(q, 'f', 2, 64)` on
an exact value: the nearest hundredth, a tie going to the even digit, with the sign of
`q` in front. -/
def formatTwoDecimals (q : ℚ) : String :=
  let cents : Nat := roundHalfEven (|q| * 100)
  (if q < 0 then "-" else "") ++ toString (cents / 100) ++ "." ++
    (if cents % 100 < 10 then "0" else "") ++ toString (cents % 100)

/-- The state the loop reaches on the sample timeline. -/
def sampleFinal : LoopState ℚ :=
  match attributionLoop parseDecimal sampleTimeline with
  | .ok s => s
  | .error _ => initState

/-- The state with one more unattributed sale counted. -/
def bumpCounter {α : Type} (s : LoopState α) : LoopState α :=
  { s with noAdSalesCount := s.noAdSalesCount + 1 }

/-- Whether `y` is a leap year. -/
def isLeapYear (y : Nat) : Bool :=
  (y % 4 == 0 && y % 100 != 0) || y % 400 == 0

/-- The number of days of month `m` of year `y`. -/
def daysInMonth (y m : Nat) : Nat :=
  if m = 2 then (if isLeapYear y then 29 else 28)
  else if m = 4 ∨ m = 6 ∨ m = 9 ∨ m = 11 then 30
  else 31

/-- The number of days from 1970-01-01 to the given date. -/
def daysFromCivil (y m d : Nat) : Int :=
  let y' : Int := if m ≤ 2 then (y : Int) - 1 else y
  let era : Int := Int.fdiv y' 400
  let yoe : Int := y' - era * 400
  let mp : Int := if 2 < m then (m : Int) - 3 else (m : Int) + 9
  let doy : Int := (153 * mp + 2) / 5 + (d : Int) - 1
  let doe : Int := yoe * 365 + yoe / 4 - yoe / 100 + doy
  era * 146097 + doe - 719468

/-- A parser for texts of the form `YYYY-MM-DD HH:MM:SS`, in seconds since 1970. -/
def parseTimestamp (text : String) : Option Int :=
  let cs := text.toList
  if cs.length = 19 ∧ cs[4]? = some '-' ∧ cs[7]? = some '-' ∧ cs[10]? = some ' ' ∧
      cs[13]? = some ':' ∧ cs[16]? = some ':' then
    match digitsValue (cs.take 4) 0, digitsValue ((cs.drop 5).take 2) 0,
      digitsValue ((cs.drop 8).take 2) 0, digitsValue ((cs.drop 11).take 2) 0,
      digitsValue ((cs.drop 14).take 2) 0, digitsValue ((cs.drop 17).take 2) 0 with
    | some y, some m, some d, some h, some n, some sec =>
      if 1 ≤ m ∧ m ≤ 12 ∧ 1 ≤ d ∧ d ≤ daysInMonth y m ∧ h < 24 ∧ n < 60 ∧ sec < 60 then
        some (daysFromCivil y m d * 86400 + (h : Int) * 3600 + (n : Int) * 60 + (sec : Int))
      else none
    | _, _, _, _, _, _ => none
  else none

/-- Two small input files. -/
def sampleFiles (filename : String) : Option (List (List String)) :=
  if filename = "ad_exposures.csv" then
    some [ ["user_id", "timestamp", "creative_id"],
      ["U1", "2024-01-01 10:00:00", "A"],
      ["U3", "2024-01-01 12:00:00", "A"],
      ["U3", "2024-01-01 12:30:00", "B"] ]
  else if filename = "sales_data.csv" then
    some [ ["user_id", "timestamp", "amount"],
      ["U1", "2024-01-01 11:00:00", "50.00"],
      ["U2", "2024-01-01 09:00:00", "30.00"],
      ["U3", "2024-01-01 13:00:00", "10.00"] ]
  else none

/-- A library for the samples: the stable sort for `sort.Slice`, keys in increasing
order for `range`. -/
def sampleLib : Lib ℚ :=
  { readAll := sampleFiles
    parseTime := parseTimestamp
    parseFloat := parseDecimal
    formatFloat := formatTwoDecimals
    sortSlice := stableSort
    rangeOrder := fun m => m.keys.sort (fun a b => a ≤ b)
    createOk := true
    writeOk := true }

/-- Two input files in which the amount of the last sale, by a user without exposure, is
not a number. -/
def badFiles (filename : String) : Option (List (List String)) :=
  if filename = "ad_exposures.csv" then
    some [ ["user_id", "timestamp", "creative_id"],
      ["U1", "2024-01-01 10:00:00", "A"] ]
  else if filename = "sales_data.csv" then
    some [ ["user_id", "timestamp", "amount"],
      ["U1", "2024-01-01 11:00:00", "50.00"],
      ["U2", "2024-01-01 12:00:00", "abc"] ]
  else none

/-- The sample library reading `badFiles`. -/
def badLib : Lib ℚ := { sampleLib with readAll := badFiles }

/-- The exposure records of `badFiles`. -/
def badImpressions : List Record :=
  [ { UserID := "U1", Timestamp := 1704103200, Typ := "exposure", Value := "A" } ]

/-- The sale records of `badFiles`. -/
def badSales : List Record :=
  [ { UserID := "U1", Timestamp := 1704106800, Typ := "sale", Value := "50.00" },
    { UserID := "U2", Timestamp := 1704110400, Typ := "sale", Value := "abc" } ]

/-- The timeline `run` builds from `badFiles`. -/
def badTimeline : List Record :=
  mergeTimeline badLib.sortSlice badImpressions badSales

/-! ## `sort.Slice` as the Go library implements it (pattern-defeating quicksort)

The functions of `sort/zsortfunc.go` that `sort.Slice` runs since Go 1.19, on a list
standing for the slice.  Loops carry a bound on the number of their iterations. -/

/-- `data.Less(i, j)`. -/
def lessAt (less : Record → Record → Bool) (data : List Record) (i j : Nat) : Bool :=
  match data[i]?, data[j]? with
  | some x, some y => less x y
  | _, _ => false

/-- `data.Swap(i, j)`. -/
def swapAt (data : List Record) (i j : Nat) : List Record :=
  match data[i]?, data[j]? with
  | some x, some y => (data.set i y).set j x
  | _, _ => data

/-- The inner loop of `insertionSort_func`: `for j := i; j > a && data.Less(j, j-1); j--`. -/
def insertionInner (less : Record → Record → Bool) (a : Nat) :
    Nat → List Record → List Record
  | 0, data => data
  | j + 1, data =>
    if a < j + 1 ∧ lessAt less data (j + 1) j = true then
      insertionInner less a j (swapAt data (j + 1) j)
    else data

/-- `insertionSort_func`: sorts `data[a:b]` by insertion. -/
def insertionSort_func (less : Record → Record → Bool) (data : List Record) (a b : Nat) :
    List Record :=
  (List.range' (a + 1) (b - (a + 1))).foldl (fun d i => insertionInner less a i d) data

/-- `siftDown_func` on `data[lo:hi]` with offset `first`. -/
def siftDown_func (less : Record → Record → Bool) (hi first : Nat) :
    Nat → Nat → List Record → List Record
  | 0, _, data => data
  | fuel + 1, root, data =>
    let child := 2 * root + 1
    if hi ≤ child then data
    else
      let child :=
        if child + 1 < hi ∧ lessAt less data (first + child) (first + child + 1) = true then
          child + 1
        else child
      if lessAt less data (first + root) (first + child) = true then
        siftDown_func less hi first fuel child (swapAt data (first + root) (first + child))
      else data

/-- `heapSort_func`: sorts `data[a:b]` with a heap. -/
def heapSort_func (less : Record → Record → Bool) (data : List Record) (a b : Nat) :
    List Record :=
  let first := a
  let hi := b - a
  let heap :=
    (List.range ((hi - 1) / 2 + 1)).reverse.foldl
      (fun d i => siftDown_func less hi first hi i d) data
  (List.range hi).reverse.foldl
    (fun d i => siftDown_func less i first hi 0 (swapAt d first (first + i))) heap

/-- `bits.Len`: the number of bits of `n`. -/
def bitsLen : Nat → Nat → Nat
  | 0, _ => 0
  | fuel + 1, n => if n = 0 then 0 else bitsLen fuel (n / 2) + 1

/-- `xorshift.Next` on a 64-bit word. -/
def xorshiftNext (r : Nat) : Nat :=
  let r := Nat.xor r ((r <<< 13) % 2 ^ 64)
  let r := Nat.xor r (r >>> 7)
  Nat.xor r ((r <<< 17) % 2 ^ 64)

/-- `breakPatterns_func`: scatters three elements around the middle of `data[a:b]`. -/
def breakPatterns_func (data : List Record) (a b : Nat) : List Record :=
  let length := b - a
  if 8 ≤ length then
    let modulus := 2 ^ bitsLen length length
    let idx := a + (length / 4) * 2 - 1
    let r1 := xorshiftNext length
    let r2 := xorshiftNext r1
    let r3 := xorshiftNext r2
    let other := fun (r : Nat) =>
      let o := r % modulus
      if length ≤ o then o - length else o
    let data := swapAt data (idx - 1 + 0) (a + other r1)
    let data := swapAt data (idx - 1 + 1) (a + other r2)
    swapAt data (idx - 1 + 2) (a + other r3)
  else data

/-- `order2_func`: the two indices in order, and the swap count. -/
def order2_func (less : Record → Record → Bool) (data : List Record) (a b swaps : Nat) :
    Nat × Nat × Nat :=
  if lessAt less data b a = true then (b, a, swaps + 1) else (a, b, swaps)

/-- `median_func`: the index of the median of three, and the swap count. -/
def median_func (less : Record → Record → Bool) (data : List Record) (a b c swaps : Nat) :
    Nat × Nat :=
  let (a, b, swaps) := order2_func less data a b swaps
  let (b, _, swaps) := order2_func less data b c swaps
  let (_, b, swaps) := order2_func less data a b swaps
  (b, swaps)

/-- `medianAdjacent_func`. -/
def medianAdjacent_func (less : Record → Record → Bool) (data : List Record) (a swaps : Nat) :
    Nat × Nat :=
  median_func less data (a - 1) a (a + 1) swaps

/-- The hint `choosePivot_func` returns with the pivot. -/
inductive SortedHint where
  | unknownHint
  | increasingHint
  | decreasingHint
deriving DecidableEq, Repr

/-- `choosePivot_func`. -/
def choosePivot_func (less : Record → Record → Bool) (data : List Record) (a b : Nat) :
    Nat × SortedHint :=
  let l := b - a
  let i := a + l / 4 * 1
  let j := a + l / 4 * 2
  let k := a + l / 4 * 3
  let (j, swaps) :=
    if 8 ≤ l then
      if 50 ≤ l then
        let (i, swaps) := medianAdjacent_func less data i 0
        let (j, swaps) := medianAdjacent_func less data j swaps
        let (k, swaps) := medianAdjacent_func less data k swaps
        median_func less data i j k swaps
      else median_func less data i j k 0
    else (j, 0)
  if swaps = 0 then (j, SortedHint.increasingHint)
  else if swaps = 12 then (j, SortedHint.decreasingHint)
  else (j, SortedHint.unknownHint)

/-- `reverseRange_func`. -/
def reverseRange_func (data : List Record) (a b : Nat) : List Record :=
  (List.range ((b - a) / 2)).foldl (fun d t => swapAt d (a + t) (b - 1 - t)) data

/-- The loop `for i <= j && data.Less(i, a) { i++ }`. -/
def scanUp (less : Record → Record → Bool) (data : List Record) (a j : Nat) : Nat → Nat → Nat
  | 0, i => i
  | fuel + 1, i =>
    if i ≤ j ∧ lessAt less data i a = true then scanUp less data a j fuel (i + 1) else i

/-- The loop `for i <= j && !data.Less(j, a) { j-- }`. -/
def scanDown (less : Record → Record → Bool) (data : List Record) (a i : Nat) : Nat → Nat → Nat
  | 0, j => j
  | fuel + 1, j =>
    if i ≤ j ∧ lessAt less data j a = false then scanDown less data a i fuel (j - 1) else j

/-- The main loop of `partition_func`. -/
def partitionLoop (less : Record → Record → Bool) (a : Nat) :
    Nat → List Record → Nat → Nat → List Record × Nat
  | 0, data, _, j => (data, j)
  | fuel + 1, data, i, j =>
    let i := scanUp less data a j data.length i
    let j := scanDown less data a i data.length j
    if j < i then (data, j)
    else partitionLoop less a fuel (swapAt data i j) (i + 1) (j - 1)

/-- `partition_func`: the new data, the new pivot position, and whether the slice was
already partitioned. -/
def partition_func (less : Record → Record → Bool) (data : List Record) (a b pivot : Nat) :
    List Record × Nat × Bool :=
  let data := swapAt data a pivot
  let i := scanUp less data a (b - 1) data.length (a + 1)
  let j := scanDown less data a i data.length (b - 1)
  if j < i then (swapAt data j a, j, true)
  else
    let (data, j) := partitionLoop less a data.length (swapAt data i j) (i + 1) (j - 1)
    (swapAt data j a, j, false)

/-- The loop `for i <= j && !data.Less(a, i) { i++ }` of `partitionEqual_func`. -/
def scanUpEqual (less : Record → Record → Bool) (data : List Record) (a j : Nat) :
    Nat → Nat → Nat
  | 0, i => i
  | fuel + 1, i =>
    if i ≤ j ∧ lessAt less data a i = false then scanUpEqual less data a j fuel (i + 1) else i

/-- The loop `for i <= j && data.Less(a, j) { j-- }` of `partitionEqual_func`. -/
def scanDownGreater (less : Record → Record → Bool) (data : List Record) (a i : Nat) :
    Nat → Nat → Nat
  | 0, j => j
  | fuel + 1, j =>
    if i ≤ j ∧ lessAt less data a j = true then scanDownGreater less data a i fuel (j - 1)
    else j

/-- The loop of `partitionEqual_func`. -/
def partitionEqualLoop (less : Record → Record → Bool) (a : Nat) :
    Nat → List Record → Nat → Nat → List Record × Nat
  | 0, data, i, _ => (data, i)
  | fuel + 1, data, i, j =>
    let i := scanUpEqual less data a j data.length i
    let j := scanDownGreater less data a i data.length j
    if j < i then (data, i)
    else partitionEqualLoop less a fuel (swapAt data i j) (i + 1) (j - 1)

/-- `partitionEqual_func`. -/
def partitionEqual_func (less : Record → Record → Bool) (data : List Record)
    (a b pivot : Nat) : List Record × Nat :=
  partitionEqualLoop less a data.length (swapAt data a pivot) (a + 1) (b - 1)

/-- The loop `for j := i - 1; j >= 1; j--` of `partialInsertionSort_func`. -/
def shiftLeft (less : Record → Record → Bool) : Nat → List Record → List Record
  | 0, data => data
  | j + 1, data =>
    if lessAt less data (j + 1) j = true then shiftLeft less j (swapAt data (j + 1) j)
    else data

/-- The loop `for j := i + 1; j < b; j++` of `partialInsertionSort_func`. -/
def shiftRight (less : Record → Record → Bool) (b : Nat) : Nat → Nat → List Record → List Record
  | 0, _, data => data
  | fuel + 1, j, data =>
    if j < b ∧ lessAt less data j (j - 1) = true then
      shiftRight less b fuel (j + 1) (swapAt data j (j - 1))
    else data

/-- The loop `for i < b && !data.Less(i, i-1) { i++ }`. -/
def scanSorted (less : Record → Record → Bool) (data : List Record) (b : Nat) : Nat → Nat → Nat
  | 0, i => i
  | fuel + 1, i =>
    if i < b ∧ lessAt less data i (i - 1) = false then scanSorted less data b fuel (i + 1) else i

/-- The outer loop of `partialInsertionSort_func`, `steps` iterations being left. -/
def partialInsertionLoop (less : Record → Record → Bool) (a b : Nat) :
    Nat → List Record → Nat → List Record × Bool
  | 0, data, _ => (data, false)
  | steps + 1, data, i =>
    let i := scanSorted less data b data.length i
    if i = b then (data, true)
    else if b - a < 50 then (data, false)
    else
      let data := swapAt data i (i - 1)
      let data := if 2 ≤ i - a then shiftLeft less (i - 1) data else data
      let data := if 2 ≤ b - i then shiftRight less b data.length (i + 1) data else data
      partialInsertionLoop less a b steps data i

/-- `partialInsertionSort_func`: at most five steps. -/
def partialInsertionSort_func (less : Record → Record → Bool) (data : List Record)
    (a b : Nat) : List Record × Bool :=
  partialInsertionLoop less a b 5 data (a + 1)

/-- `pdqsort_func` on `data[a:b]`; the two flags are its local variables `wasBalanced`
and `wasPartitioned`. -/
def pdqsort_func (less : Record → Record → Bool) :
    Nat → List Record → Nat → Nat → Nat → Bool → Bool → List Record
  | 0, data, _, _, _, _, _ => data
  | fuel + 1, data, a, b, limit, wasBalanced, wasPartitioned =>
    let length := b - a
    if length ≤ 12 then insertionSort_func less data a b
    else if limit = 0 then heapSort_func less data a b
    else
      let data := if wasBalanced then data else breakPatterns_func data a b
      let limit := if wasBalanced then limit else limit - 1
      let (pivot, hint) := choosePivot_func less data a b
      let (data, pivot, hint) :=
        if hint = SortedHint.decreasingHint then
          (reverseRange_func data a b, (b - 1) - (pivot - a), SortedHint.increasingHint)
        else (data, pivot, hint)
      let (data, done) :=
        if wasBalanced ∧ wasPartitioned ∧ hint = SortedHint.increasingHint then
          partialInsertionSort_func less data a b
        else (data, false)
      if done then data
      else if 0 < a ∧ lessAt less data (a - 1) pivot = false then
        let (data, mid) := partitionEqual_func less data a b pivot
        pdqsort_func less fuel data mid b limit wasBalanced wasPartitioned
      else
        let (data, mid, alreadyPartitioned) := partition_func less data a b pivot
        let leftLen := mid - a
        let rightLen := b - mid
        let balanceThreshold := length / 8
        if leftLen < rightLen then
          let data := pdqsort_func less fuel data a mid limit true true
          pdqsort_func less fuel data (mid + 1) b limit (decide (balanceThreshold ≤ leftLen))
            alreadyPartitioned
        else
          let data := pdqsort_func less fuel data (mid + 1) b limit true true
          pdqsort_func less fuel data a mid limit (decide (balanceThreshold ≤ rightLen))
            alreadyPartitioned

/-- `sort.Slice(x, less)`. -/
def goSortSlice (less : Record → Record → Bool) (data : List Record) : List Record :=
  pdqsort_func less (data.length + 1) data 0 data.length (bitsLen data.length data.length)
    true true


/-- One exposure of `U1`. -/
def tieExposures : List Record :=
  [ { UserID := "U1", Timestamp := 100, Typ := "exposure", Value := "A" } ]

/-- Twelve sales: all at the second of the exposure but the last, which is one second
earlier; the sixth is a sale of `U1`. -/
def tieSales : List Record :=
  [ { UserID := "V1", Timestamp := 100, Typ := "sale", Value := "1.00" },
    { UserID := "V2", Timestamp := 100, Typ := "sale", Value := "1.00" },
    { UserID := "V3", Timestamp := 100, Typ := "sale", Value := "1.00" },
    { UserID := "V4", Timestamp := 100, Typ := "sale", Value := "1.00" },
    { UserID := "V5", Timestamp := 100, Typ := "sale", Value := "1.00" },
    { UserID := "U1", Timestamp := 100, Typ := "sale", Value := "50.00" },
    { UserID := "V7", Timestamp := 100, Typ := "sale", Value := "1.00" },
    { UserID := "V8", Timestamp := 100, Typ := "sale", Value := "1.00" },
    { UserID := "V9", Timestamp := 100, Typ := "sale", Value := "1.00" },
    { UserID := "V10", Timestamp := 100, Typ := "sale", Value := "1.00" },
    { UserID := "V11", Timestamp := 100, Typ := "sale", Value := "1.00" },
    { UserID := "V12", Timestamp := 99, Typ := "sale", Value := "1.00" } ]

/-- A sale of `U2`. -/
def saleU2 : Record :=
  { UserID := "U2", Timestamp := 32400, Typ := "sale", Value := "30.00" }

/-- An exposure of `U2` with an empty payload. -/
def emptyExposureU2 : Record :=
  { UserID := "U2", Timestamp := 32000, Typ := "exposure", Value := "" }

/-- An exposure of `U2` to `B`. -/
def exposureU2B : Record :=
  { UserID := "U2", Timestamp := 32000, Typ := "exposure", Value := "B" }

/-- The initial state with `A` recorded as the latest exposure of `U2`. -/
def stateU2A : LoopState ℚ :=
  { (initState : LoopState ℚ) with
    userLatestExposures := (∅ : GoMap String).insert "U2" "A" }

/-- The exposure events of the sample timeline, in order. -/
def sampleImpressions : List Record :=
  sampleTimeline.filter (fun r => r.Typ == "exposure")

/-- The sale events of the sample timeline, in order. -/
def sampleSales : List Record :=
  sampleTimeline.filter (fun r => r.Typ == "sale")

/-! ## Rows of the input files and of the table; further sample inputs -/

/-- The record the specification asks for a row: `UserID` the first field, `Timestamp`
the parsed second field, `Value` the third field, `Typ` the declared kind; none when the
row has fewer than three fields or its second field is not a timestamp. -/
def rowRecord (parseTime : String → Option Int) (recordType : String) (l : List String) :
    Option Record :=
  match l with
  | u :: t :: v :: _ =>
    match parseTime t with
    | some ts => some { UserID := u, Timestamp := ts, Typ := recordType, Value := v }
    | none => none
  | _ => none

/-- A sale file whose rows, like its header, have four fields. -/
def wideFiles (filename : String) : Option (List (List String)) :=
  if filename = "sales_data.csv" then
    some [ ["user_id", "timestamp", "amount", "note"],
      ["U1", "2024-01-01 11:00:00", "50.00", "gift"] ]
  else sampleFiles filename

/-- A sale file whose rows, like its header, have two fields. -/
def shortFiles (filename : String) : Option (List (List String)) :=
  if filename = "sales_data.csv" then
    some [ ["user_id", "timestamp"],
      ["U1", "2024-01-01 11:00:00"] ]
  else sampleFiles filename

/-- Files without any line, as read from empty files. -/
def emptyFiles (_ : String) : Option (List (List String)) := some []

/-- The sample library reading `emptyFiles`. -/
def emptyLib : Lib ℚ := { sampleLib with readAll := emptyFiles }

/-- The row written for key `k` of `summary`; empty when `k` is not a key. -/
def rowOfKey {α : Type} (formatFloat : α → String) (summary : GoMap (Dimension α))
    (k : String) : List String :=
  match summary.lookup k with
  | some d => dimensionRow formatFloat k d
  | none => []

/-- The first field of every row after the header. -/
def dimensionFields (table : List (List String)) : List String :=
  (table.drop 1).map (fun row => row.headD "")

/-- The sample library with the keys of `range` visited in decreasing order. -/
def descLib : Lib ℚ :=
  { sampleLib with rangeOrder := fun m => (m.keys.sort (fun a b => a ≤ b)).reverse }

/-- Input files in which the payload of the only exposure is the string `overall`. -/
def overallFiles (filename : String) : Option (List (List String)) :=
  if filename = "ad_exposures.csv" then
    some [ ["user_id", "timestamp", "creative_id"],
      ["U1", "2024-01-01 10:00:00", "overall"] ]
  else if filename = "sales_data.csv" then
    some [ ["user_id", "timestamp", "amount"],
      ["U1", "2024-01-01 11:00:00", "5.00"] ]
  else none

/-- The sample library reading `overallFiles`. -/
def overallLib : Lib ℚ := { sampleLib with readAll := overallFiles }

/-- The state the loop reaches after five events of the sample timeline. -/
def sampleAfterFive : LoopState ℚ :=
  match attributionLoop parseDecimal (sampleTimeline.take 5) with
  | .ok s => s
  | .error _ => initState

/-- Input files in which the only sale has the negative amount `-5.00`. -/
def negativeFiles (filename : String) : Option (List (List String)) :=
  if filename = "ad_exposures.csv" then
    some [ ["user_id", "timestamp", "creative_id"],
      ["U1", "2024-01-01 10:00:00", "A"] ]
  else if filename = "sales_data.csv" then
    some [ ["user_id", "timestamp", "amount"],
      ["U1", "2024-01-01 11:00:00", "-5.00"] ]
  else none

/-- The sample library reading `negativeFiles`. -/
def negativeLib : Lib ℚ := { sampleLib with readAll := negativeFiles }

/-- A sale of `U2` with the amount `-5.00`. -/
def refundU2 : Record :=
  { UserID := "U2", Timestamp := 32400, Typ := "sale", Value := "-5.00" }

/-! ## `float64` with its special values

A carrier for the amounts in which `strconv.ParseFloat` and `strconv.FormatFloat` can be
followed on the texts `NaN` and `Inf`, and the reading of a numeral with two decimals that
the specification asks of a `total_sales` field. -/

/-- A `float64` as far as the totals need one: a finite value, kept exact here (binary
rounding is left out), or one of the special values NaN, +Inf and -Inf. -/
inductive GoFloat64 where
  | finite (q : ℚ)
  | nan
  | posInf
  | negInf
deriving DecidableEq

/-- The sum of two `float64` values, in the manner of IEEE 754 on the special values. -/
def GoFloat64.add : GoFloat64 → GoFloat64 → GoFloat64
  | .finite a, .finite b => .finite (a + b)
  | .nan, _ => .nan
  | _, .nan => .nan
  | .posInf, .negInf => .nan
  | .negInf, .posInf => .nan
  | .posInf, _ => .posInf
  | _, .posInf => .posInf
  | .negInf, _ => .negInf
  | _, .negInf => .negInf

instance : Zero GoFloat64 := ⟨GoFloat64.finite 0⟩

instance : Add GoFloat64 := ⟨GoFloat64.add⟩

/-- The behaviour of `strconv.ParseFloat(text, 64)` on the texts used here: the
spellings `nan`, `inf` and `infinity` of the special values are accepted in any case, the
latter two with an optional sign, as are signed decimal numerals. -/
def parseGoFloat (text : String) : Option GoFloat64 :=
  let lower := text.toLower
  if lower = "nan" then some GoFloat64.nan
  else if lower = "inf" ∨ lower = "+inf" ∨ lower = "infinity" ∨ lower = "+infinity" then
    some GoFloat64.posInf
  else if lower = "-inf" ∨ lower = "-infinity" then some GoFloat64.negInf
  else (parseDecimal text).map GoFloat64.finite

/-- The behaviour of `strconv.FormatFloat(x, 'f', 2, 64)`: a finite value is written
rounded to the nearest hundredth, a tie going to the even digit; the special values are
written `NaN`, `+Inf` and `-Inf`. -/
def formatGoFloat : GoFloat64 → String
  | .finite q => formatTwoDecimals q
  | .nan => "NaN"
  | .posInf => "+Inf"
  | .negInf => "-Inf"

/-- Input files in which the amount of the only sale is the text `NaN`. -/
def nanFiles (filename : String) : Option (List (List String)) :=
  if filename = "ad_exposures.csv" then
    some [ ["user_id", "timestamp", "creative_id"],
      ["U1", "2024-01-01 10:00:00", "A"] ]
  else if filename = "sales_data.csv" then
    some [ ["user_id", "timestamp", "amount"],
      ["U1", "2024-01-01 11:00:00", "NaN"] ]
  else none

/-- A library over `GoFloat64` reading `nanFiles`. -/
def nanLib : Lib GoFloat64 :=
  { readAll := nanFiles
    parseTime := parseTimestamp
    parseFloat := parseGoFloat
    formatFloat := formatGoFloat
    sortSlice := stableSort
    rangeOrder := fun m => m.keys.sort (fun a b => a ≤ b)
    createOk := true
    writeOk := true }

/-- The number written by one or more digits, a point and exactly two digits; `none` for
any other text. -/
def unsignedTwoDecimalValue (cs : List Char) : Option ℚ :=
  match cs.dropWhile Char.isDigit with
  | ['.', d1, d2] =>
    if cs.takeWhile Char.isDigit = [] then none
    else
      match digitsValue (cs.takeWhile Char.isDigit) 0, digitValue d1, digitValue d2 with
      | some n, some a, some b => some ((n : ℚ) + ((10 * a + b : Nat) : ℚ) / 100)
      | _, _, _ => none
  | _ => none

/-- The number written by a decimal numeral with exactly two digits after the decimal
point: an optional `-`, one or more digits, a point and two digits; `none` for any other
text. -/
def twoDecimalValue (text : String) : Option ℚ :=
  match text.toList with
  | '-' :: cs => (unsignedTwoDecimalValue cs).map (fun v => -v)
  | cs => unsignedTwoDecimalValue cs

/-- A library over `GoFloat64` reading the sample files. -/
def floatLib : Lib GoFloat64 := { nanLib with readAll := sampleFiles }

/-- The text is a decimal numeral with exactly two digits after the decimal point, and
the number it writes is `q` rounded to two decimal places: a hundredth at most half a
hundredth away from `q`. -/
def IsTwoDecimalRounding (q : ℚ) (text : String) : Prop :=
  ∃ v, twoDecimalValue text = some v ∧ |v - q| ≤ 1 / 200

/-- A timeline in which `U1` sees `A` and buys for an eighth: half a hundredth above
twelve hundredths. -/
def halfCentTimeline : List Record :=
  [ { UserID := "U1", Timestamp := 36000, Typ := "exposure", Value := "A" },
    { UserID := "U1", Timestamp := 39600, Typ := "sale", Value := "0.125" } ]

/-! # Lemmas -/

/-! ## The specification's notions, one event at a time -/

theorem lastExposure_nil (u : String) : lastExposure [] u = none := by
  simp [lastExposure]

theorem lastExposure_snoc (pre : List Record) (r : Record) (u : String) :
    lastExposure (pre ++ [r]) u =
      if r.Typ = "exposure" ∧ r.UserID = u then some r.Value else lastExposure pre u := by
  unfold lastExposure
  rw [List.reverse_append, List.reverse_singleton, List.singleton_append, List.find?_cons]
  by_cases h : r.Typ = "exposure" ∧ r.UserID = u
  · simp [h]
  · simp [h]

theorem range_filterMap_snoc {β : Type} (g g' : Nat → Option β) (n : Nat)
    (h : ∀ i, i < n → g' i = g i) :
    (List.range (n + 1)).filterMap g' = (List.range n).filterMap g ++ (g' n).toList := by
  rw [List.range_succ, List.filterMap_append]
  congr 1
  apply List.filterMap_congr
  intro i hi
  exact h i (List.mem_range.mp hi)

theorem creditedAt_snoc_lt (pre : List Record) (r : Record) (v : String) (i : Nat)
    (hi : i < pre.length) : creditedAt (pre ++ [r]) v i = creditedAt pre v i := by
  unfold creditedAt
  rw [List.getElem?_append_left hi, List.take_append_of_le_length (Nat.le_of_lt hi)]

theorem creditedAt_snoc_last (pre : List Record) (r : Record) (v : String) :
    creditedAt (pre ++ [r]) v pre.length =
      decide (r.Typ = "sale" ∧ v ≠ "" ∧ lastExposure pre r.UserID = some v) := by
  unfold creditedAt
  rw [List.getElem?_append_right (Nat.le_refl _), List.take_left]
  simp

theorem creditedSales_snoc (pre : List Record) (r : Record) (v : String) :
    creditedSales (pre ++ [r]) v =
      creditedSales pre v ++
        (if r.Typ = "sale" ∧ v ≠ "" ∧ lastExposure pre r.UserID = some v then [r] else []) := by
  unfold creditedSales
  rw [List.length_append, List.length_singleton]
  rw [range_filterMap_snoc
    (fun i => if creditedAt pre v i then pre[i]? else none) _ pre.length]
  · congr 1
    rw [creditedAt_snoc_last]
    by_cases h : r.Typ = "sale" ∧ v ≠ "" ∧ lastExposure pre r.UserID = some v
    · simp [h]
    · simp [h]
  · intro i hi
    simp only [creditedAt_snoc_lt pre r v i hi, List.getElem?_append_left hi]

theorem attributedAt_snoc_lt (pre : List Record) (r : Record) (i : Nat)
    (hi : i < pre.length) : attributedAt (pre ++ [r]) i = attributedAt pre i := by
  unfold attributedAt
  rw [List.getElem?_append_left hi, List.take_append_of_le_length (Nat.le_of_lt hi)]

theorem attributedAt_snoc_last (pre : List Record) (r : Record) :
    attributedAt (pre ++ [r]) pre.length =
      decide (r.Typ = "sale" ∧ ∃ v, lastExposure pre r.UserID = some v ∧ v ≠ "") := by
  unfold attributedAt
  rw [List.getElem?_append_right (Nat.le_refl _), List.take_left]
  simp only [Nat.sub_self, List.getElem?_cons_zero]
  cases h : lastExposure pre r.UserID <;> simp

theorem attributedSales_snoc (pre : List Record) (r : Record) :
    attributedSales (pre ++ [r]) =
      attributedSales pre ++
        (if attributedAt (pre ++ [r]) pre.length then [r] else []) := by
  unfold attributedSales
  rw [List.length_append, List.length_singleton]
  rw [range_filterMap_snoc
    (fun i => if attributedAt pre i then pre[i]? else none) _ pre.length]
  · congr 1
    cases attributedAt (pre ++ [r]) pre.length <;> simp
  · intro i hi
    simp only [attributedAt_snoc_lt pre r i hi, List.getElem?_append_left hi]

theorem unattributedAt_snoc_lt (pre : List Record) (r : Record) (i : Nat)
    (hi : i < pre.length) : unattributedAt (pre ++ [r]) i = unattributedAt pre i := by
  unfold unattributedAt
  rw [List.getElem?_append_left hi, List.take_append_of_le_length (Nat.le_of_lt hi)]

theorem unattributedAt_snoc_last (pre : List Record) (r : Record) :
    unattributedAt (pre ++ [r]) pre.length =
      decide (r.Typ = "sale" ∧
        (lastExposure pre r.UserID = none ∨ lastExposure pre r.UserID = some "")) := by
  unfold unattributedAt
  rw [List.getElem?_append_right (Nat.le_refl _), List.take_left]
  simp

theorem unattributedCount_snoc (pre : List Record) (r : Record) :
    unattributedCount (pre ++ [r]) =
      unattributedCount pre + (if unattributedAt (pre ++ [r]) pre.length then 1 else 0) := by
  unfold unattributedCount
  rw [List.length_append, List.length_singleton, List.range_succ, List.countP_append]
  congr 1
  · apply List.countP_congr
    intro i hi
    rw [unattributedAt_snoc_lt pre r i (List.mem_range.mp hi)]
  · cases h : unattributedAt (pre ++ [r]) pre.length <;> simp [List.countP_cons, h]

theorem addUp_snoc {α : Type} [Zero α] [Add α] (parseFloat : String → Option α)
    (sales : List Record) (r : Record) :
    addUp parseFloat (sales ++ [r]) = addUp parseFloat sales + amountOf parseFloat r := by
  simp [addUp, List.foldl_append]

/-! ## What one iteration does -/

theorem step_exposure {α : Type} [Zero α] [Add α] (parseFloat : String → Option α)
    (s : LoopState α) (r : Record) (hr : r.Typ = "exposure") :
    step parseFloat s r =
      .ok { s with userLatestExposures := s.userLatestExposures.insert r.UserID r.Value } := by
  simp [step, hr]

theorem step_parse_error {α : Type} [Zero α] [Add α] (parseFloat : String → Option α)
    (s : LoopState α) (r : Record) (hr : r.Typ ≠ "exposure") (hp : parseFloat r.Value = none) :
    step parseFloat s r = .error (Failure.parseFloatError r.Value) := by
  simp [step, hr, hp]

theorem step_unattributed {α : Type} [Zero α] [Add α] (parseFloat : String → Option α)
    (s : LoopState α) (r : Record) (a : α) (hr : r.Typ ≠ "exposure")
    (hp : parseFloat r.Value = some a)
    (hi : lookupImpression s.userLatestExposures r.UserID = "") :
    step parseFloat s r = .ok { s with noAdSalesCount := s.noAdSalesCount + 1 } := by
  simp [step, hr, hp, hi]

theorem step_attributed {α : Type} [Zero α] [Add α] (parseFloat : String → Option α)
    (s : LoopState α) (r : Record) (a : α) (hr : r.Typ ≠ "exposure")
    (hp : parseFloat r.Value = some a)
    (hi : lookupImpression s.userLatestExposures r.UserID ≠ "") :
    step parseFloat s r =
      .ok { s with
        overall :=
          { s.overall with
            TotalSales := s.overall.TotalSales + a
            Purchasers := insert r.UserID s.overall.Purchasers }
        summary :=
          s.summary.insert (lookupImpression s.userLatestExposures r.UserID)
            { fetchOrCreate s.summary (lookupImpression s.userLatestExposures r.UserID) with
              Purchasers :=
                insert r.UserID
                  (fetchOrCreate s.summary
                    (lookupImpression s.userLatestExposures r.UserID)).Purchasers
              TotalSales :=
                (fetchOrCreate s.summary
                  (lookupImpression s.userLatestExposures r.UserID)).TotalSales + a } } := by
  simp [step, hr, hp, hi]

theorem lookupImpression_eq_empty (m : GoMap String) (u : String) :
    lookupImpression m u = "" ↔ m.lookup u = none ∨ m.lookup u = some "" := by
  unfold lookupImpression
  cases m.lookup u <;> simp

theorem lookupImpression_of_some (m : GoMap String) (u w : String)
    (h : m.lookup u = some w) : lookupImpression m u = w := by
  simp [lookupImpression, h]

theorem fetchOrCreate_total {α : Type} [Zero α] [Add α] (s : LoopState α) (v : String) :
    (fetchOrCreate s.summary v).TotalSales = totalOf s v := by
  unfold fetchOrCreate totalOf
  cases s.summary.lookup v <;> rfl

theorem fetchOrCreate_purchasers {α : Type} [Zero α] (s : LoopState α) (v : String) :
    (fetchOrCreate s.summary v).Purchasers = purchasersOf s v := by
  unfold fetchOrCreate purchasersOf
  cases s.summary.lookup v <;> rfl

theorem tracks_init {α : Type} [Zero α] [Add α] (parseFloat : String → Option α) :
    Tracks parseFloat [] (initState : LoopState α) := by
  refine ⟨?_, ?_, ?_, ?_, ?_, ?_, ?_⟩ <;>
    simp [initState, lastExposure, totalOf, purchasersOf, creditedSales, attributedSales,
      addUp, unattributedCount, Finmap.not_mem_empty]

theorem amountOf_of_some {α : Type} [Zero α] (parseFloat : String → Option α) (r : Record)
    (a : α) (hp : parseFloat r.Value = some a) : amountOf parseFloat r = a := by
  simp [amountOf, hp]

theorem exposure_ne_sale : ("exposure" : String) ≠ "sale" := by decide

theorem tracks_step_exposure {α : Type} [Zero α] [Add α] (parseFloat : String → Option α)
    (pre : List Record) (r : Record) (s : LoopState α) (hr : r.Typ = "exposure")
    (ht : Tracks parseFloat pre s) :
    Tracks parseFloat (pre ++ [r])
      { s with userLatestExposures := s.userLatestExposures.insert r.UserID r.Value } := by
  have hns : ¬ r.Typ = "sale" := by rw [hr]; exact exposure_ne_sale
  have hc : ∀ v, creditedSales (pre ++ [r]) v = creditedSales pre v := by
    intro v
    rw [creditedSales_snoc]
    simp [hns]
  have ha : attributedSales (pre ++ [r]) = attributedSales pre := by
    rw [attributedSales_snoc, attributedAt_snoc_last]
    cases lastExposure pre r.UserID <;> simp [hns]
  have hu : unattributedCount (pre ++ [r]) = unattributedCount pre := by
    rw [unattributedCount_snoc, unattributedAt_snoc_last]
    simp [hns]
  refine ⟨?_, ?_, ?_, ?_, ?_, ?_, ?_⟩
  · intro u
    rw [lastExposure_snoc]
    by_cases hu : r.UserID = u
    · subst hu
      simp [hr, Finmap.lookup_insert]
    · have hu' : u ≠ r.UserID := fun h => hu h.symm
      simp [hu, Finmap.lookup_insert_of_ne _ hu', ht.exposures u]
  · intro v
    rw [hc v]
    exact ht.totals v
  · intro v
    rw [hc v]
    exact ht.purchasers v
  · intro v
    rw [hc v]
    exact ht.keys v
  · rw [ha]
    exact ht.overallTotal
  · rw [ha]
    exact ht.overallPurchasers
  · rw [hu]
    exact ht.counter

theorem tracks_step_unattributed {α : Type} [Zero α] [Add α] (parseFloat : String → Option α)
    (pre : List Record) (r : Record) (s : LoopState α) (hr : r.Typ = "sale")
    (hi : lookupImpression s.userLatestExposures r.UserID = "")
    (ht : Tracks parseFloat pre s) :
    Tracks parseFloat (pre ++ [r]) { s with noAdSalesCount := s.noAdSalesCount + 1 } := by
  have hne : ¬ r.Typ = "exposure" := by rw [hr]; exact fun h => exposure_ne_sale h.symm
  have hl : lastExposure pre r.UserID = none ∨ lastExposure pre r.UserID = some "" := by
    rw [← ht.exposures]
    exact (lookupImpression_eq_empty _ _).mp hi
  have hc : ∀ v, creditedSales (pre ++ [r]) v = creditedSales pre v := by
    intro v
    rw [creditedSales_snoc]
    have : ¬ (r.Typ = "sale" ∧ v ≠ "" ∧ lastExposure pre r.UserID = some v) := by
      rintro ⟨_, hv, hlv⟩
      rcases hl with h | h
      · rw [h] at hlv; exact Option.noConfusion hlv
      · rw [h] at hlv; exact hv (Option.some.inj hlv).symm
    simp [this]
  have ha : attributedSales (pre ++ [r]) = attributedSales pre := by
    rw [attributedSales_snoc, attributedAt_snoc_last]
    rcases hl with h | h <;> simp [h]
  have hu : unattributedCount (pre ++ [r]) = unattributedCount pre + 1 := by
    rw [unattributedCount_snoc, unattributedAt_snoc_last]
    simp [hr, hl]
  refine ⟨?_, ?_, ?_, ?_, ?_, ?_, ?_⟩
  · intro u
    rw [lastExposure_snoc]
    simp [hne, ht.exposures u]
  · intro v
    rw [hc v]
    exact ht.totals v
  · intro v
    rw [hc v]
    exact ht.purchasers v
  · intro v
    rw [hc v]
    exact ht.keys v
  · rw [ha]
    exact ht.overallTotal
  · rw [ha]
    exact ht.overallPurchasers
  · rw [hu]
    simp [ht.counter]

theorem tracks_step_attributed {α : Type} [Zero α] [Add α] (parseFloat : String → Option α)
    (pre : List Record) (r : Record) (s s' : LoopState α) (a : α) (hr : r.Typ = "sale")
    (hp : parseFloat r.Value = some a)
    (hi : lookupImpression s.userLatestExposures r.UserID ≠ "")
    (ht : Tracks parseFloat pre s) (hs : step parseFloat s r = .ok s') :
    Tracks parseFloat (pre ++ [r]) s' := by
  have hne : ¬ r.Typ = "exposure" := by rw [hr]; exact fun h => exposure_ne_sale h.symm
  rw [step_attributed parseFloat s r a hne hp hi] at hs
  generalize hw : lookupImpression s.userLatestExposures r.UserID = w at hs hi
  have hl : lastExposure pre r.UserID = some w := by
    rw [← ht.exposures]
    unfold lookupImpression at hw
    cases hlk : s.userLatestExposures.lookup r.UserID with
    | none => rw [hlk] at hw; exact absurd hw.symm hi
    | some x => rw [hlk] at hw; rw [← hw]
  have hc : ∀ v, creditedSales (pre ++ [r]) v =
      creditedSales pre v ++ (if v = w then [r] else []) := by
    intro v
    rw [creditedSales_snoc, hl]
    by_cases hv : v = w
    · subst hv; simp [hr, hi]
    · have : ¬ w = v := fun h => hv h.symm
      simp [hv, this]
  have ha : attributedSales (pre ++ [r]) = attributedSales pre ++ [r] := by
    rw [attributedSales_snoc, attributedAt_snoc_last, hl]
    simp [hr, hi]
  have hu : unattributedCount (pre ++ [r]) = unattributedCount pre := by
    rw [unattributedCount_snoc, unattributedAt_snoc_last, hl]
    have : ¬ (w = "") := hi
    simp [this]
  have hs' := (Except.ok.inj hs).symm
  subst hs'
  refine ⟨?_, ?_, ?_, ?_, ?_, ?_, ?_⟩
  · intro u
    rw [lastExposure_snoc]
    simp [hne, ht.exposures u]
  · intro v
    rw [hc v]
    by_cases hv : v = w
    · subst hv
      simp only [totalOf, Finmap.lookup_insert, if_true, addUp_snoc,
        amountOf_of_some parseFloat r a hp, fetchOrCreate_total, ← ht.totals]
    · simp only [totalOf, Finmap.lookup_insert_of_ne _ hv, if_neg hv, List.append_nil]
      exact ht.totals v
  · intro v
    rw [hc v]
    by_cases hv : v = w
    · subst hv
      simp only [purchasersOf, Finmap.lookup_insert, if_true]
      rw [fetchOrCreate_purchasers, ht.purchasers]
      ext x
      simp [or_comm]
    · simp only [purchasersOf, Finmap.lookup_insert_of_ne _ hv, if_neg hv, List.append_nil]
      exact ht.purchasers v
  · intro v
    rw [hc v, Finmap.mem_insert]
    by_cases hv : v = w
    · simp [hv]
    · simp [hv, ht.keys v]
  · rw [ha, addUp_snoc, amountOf_of_some parseFloat r a hp, ← ht.overallTotal]
  · rw [ha]
    simp only [ht.overallPurchasers]
    ext x
    simp [or_comm]
  · rw [hu]
    exact ht.counter

theorem tracks_step {α : Type} [Zero α] [Add α] (parseFloat : String → Option α)
    (pre : List Record) (r : Record) (s s' : LoopState α)
    (hk : r.Typ = "exposure" ∨ r.Typ = "sale")
    (ht : Tracks parseFloat pre s) (hs : step parseFloat s r = .ok s') :
    Tracks parseFloat (pre ++ [r]) s' := by
  rcases hk with hr | hr
  · rw [step_exposure parseFloat s r hr] at hs
    rw [← Except.ok.inj hs]
    exact tracks_step_exposure parseFloat pre r s hr ht
  · have hne : ¬ r.Typ = "exposure" := by rw [hr]; exact fun h => exposure_ne_sale h.symm
    cases hp : parseFloat r.Value with
    | none =>
      rw [step_parse_error parseFloat s r hne hp] at hs
      exact Except.noConfusion hs
    | some a =>
      by_cases hi : lookupImpression s.userLatestExposures r.UserID = ""
      · rw [step_unattributed parseFloat s r a hne hp hi] at hs
        rw [← Except.ok.inj hs]
        exact tracks_step_unattributed parseFloat pre r s hr hi ht
      · exact tracks_step_attributed parseFloat pre r s s' a hr hp hi ht hs

/-! ## The loop, one event at a time -/

theorem loopFrom_append {α : Type} [Zero α] [Add α] (parseFloat : String → Option α)
    (s : LoopState α) (xs ys : List Record) :
    loopFrom parseFloat s (xs ++ ys) =
      match loopFrom parseFloat s xs with
      | .error e => .error e
      | .ok s' => loopFrom parseFloat s' ys := by
  induction xs generalizing s with
  | nil => simp [loopFrom]
  | cons x xs ih =>
    simp only [List.cons_append, loopFrom]
    cases h : step parseFloat s x with
    | error e => simp
    | ok s' => simpa using ih s'

theorem attributionLoop_snoc {α : Type} [Zero α] [Add α] (parseFloat : String → Option α)
    (pre : List Record) (r : Record) :
    attributionLoop parseFloat (pre ++ [r]) =
      match attributionLoop parseFloat pre with
      | .error e => .error e
      | .ok s => step parseFloat s r := by
  unfold attributionLoop
  rw [loopFrom_append]
  cases h : loopFrom parseFloat initState pre with
  | error e => simp
  | ok s =>
    simp only [loopFrom]
    cases step parseFloat s r <;> simp

theorem wellKinded_append (xs ys : List Record) :
    WellKinded (xs ++ ys) ↔ WellKinded xs ∧ WellKinded ys := by
  simp only [WellKinded, List.mem_append]
  constructor
  · intro h
    exact ⟨fun r hr => h r (Or.inl hr), fun r hr => h r (Or.inr hr)⟩
  · rintro ⟨h1, h2⟩ r (hr | hr)
    · exact h1 r hr
    · exact h2 r hr

theorem allAmountsParse_append {α : Type} (parseFloat : String → Option α)
    (xs ys : List Record) :
    AllAmountsParse parseFloat (xs ++ ys) ↔
      AllAmountsParse parseFloat xs ∧ AllAmountsParse parseFloat ys := by
  simp only [AllAmountsParse, List.mem_append]
  constructor
  · intro h
    exact ⟨fun r hr => h r (Or.inl hr), fun r hr => h r (Or.inr hr)⟩
  · rintro ⟨h1, h2⟩ r (hr | hr)
    · exact h1 r hr
    · exact h2 r hr

/-- The state the loop reaches agrees with the specification's reading of the timeline. -/
theorem tracks_loop {α : Type} [Zero α] [Add α] (parseFloat : String → Option α)
    (records : List Record) (hk : WellKinded records) :
    ∀ s, attributionLoop parseFloat records = .ok s → Tracks parseFloat records s := by
  induction records using List.reverseRecOn with
  | nil =>
    intro s hs
    simp only [attributionLoop, loopFrom] at hs
    rw [← Except.ok.inj hs]
    exact tracks_init parseFloat
  | append_singleton pre r ih =>
    intro s hs
    rw [attributionLoop_snoc] at hs
    have hk' := (wellKinded_append pre [r]).mp hk
    cases hpre : attributionLoop parseFloat pre with
    | error e => rw [hpre] at hs; exact Except.noConfusion hs
    | ok s0 =>
      rw [hpre] at hs
      exact tracks_step parseFloat pre r s0 s (hk'.2 r (List.mem_singleton.mpr rfl))
        (ih hk'.1 s0 hpre) hs

/-- One iteration fails only on an event that is not an exposure and whose amount does
not parse. -/
theorem step_error_iff {α : Type} [Zero α] [Add α] (parseFloat : String → Option α)
    (s : LoopState α) (r : Record) (e : Failure) :
    step parseFloat s r = .error e ↔
      r.Typ ≠ "exposure" ∧ parseFloat r.Value = none ∧ e = Failure.parseFloatError r.Value := by
  by_cases hr : r.Typ = "exposure"
  · simp [step_exposure parseFloat s r hr, hr]
  · cases hp : parseFloat r.Value with
    | none =>
      rw [step_parse_error parseFloat s r hr hp]
      simp [hr, eq_comm]
    | some a =>
      by_cases hi : lookupImpression s.userLatestExposures r.UserID = ""
      · simp [step_unattributed parseFloat s r a hr hp hi]
      · simp [step_attributed parseFloat s r a hr hp hi]

/-- The loop reaches its end when every sale amount parses. -/
theorem loop_succeeds {α : Type} [Zero α] [Add α] (parseFloat : String → Option α)
    (records : List Record) (hk : WellKinded records)
    (hp : AllAmountsParse parseFloat records) :
    ∃ s, attributionLoop parseFloat records = .ok s := by
  induction records using List.reverseRecOn with
  | nil => exact ⟨initState, rfl⟩
  | append_singleton pre r ih =>
    have hk' := (wellKinded_append pre [r]).mp hk
    have hp' := (allAmountsParse_append parseFloat pre [r]).mp hp
    obtain ⟨s0, hs0⟩ := ih hk'.1 hp'.1
    rw [attributionLoop_snoc, hs0]
    cases hst : step parseFloat s0 r with
    | ok s => exact ⟨s, hst⟩
    | error e =>
      exfalso
      obtain ⟨hne, hnone, _⟩ := (step_error_iff parseFloat s0 r e).mp hst
      rcases hk'.2 r (List.mem_singleton.mpr rfl) with h | h
      · exact hne h
      · have hsome := hp'.2 r (List.mem_singleton.mpr rfl) h
        rw [hnone] at hsome
        exact Bool.noConfusion hsome

theorem addUp_eq_sum {α : Type} [AddCommMonoid α] (parseFloat : String → Option α)
    (sales : List Record) :
    addUp parseFloat sales = (sales.map (amountOf parseFloat)).sum := by
  rw [addUp, List.sum_eq_foldl]

theorem keys_insert' {β : Type} (m : GoMap β) (w : String) (d : β) :
    (m.insert w d).keys = insert w m.keys := by
  ext k
  simp [Finmap.mem_keys, Finmap.mem_insert]

theorem purchasersOf_eq_empty {α : Type} (s : LoopState α) (k : String)
    (hk : k ∉ s.summary) : purchasersOf s k = ∅ := by
  simp [purchasersOf, Finmap.lookup_eq_none.mpr hk]

theorem totalOf_eq_zero {α : Type} [Zero α] (s : LoopState α) (k : String)
    (hk : k ∉ s.summary) : totalOf s k = 0 := by
  simp [totalOf, Finmap.lookup_eq_none.mpr hk]

theorem mem_unionOfPurchasers {α : Type} (s : LoopState α) (x : String) :
    x ∈ unionOfPurchasers s ↔ ∃ k, x ∈ purchasersOf s k := by
  simp only [unionOfPurchasers, Finset.mem_biUnion, Finmap.mem_keys]
  constructor
  · rintro ⟨k, _, hx⟩
    exact ⟨k, hx⟩
  · rintro ⟨k, hx⟩
    refine ⟨k, ?_, hx⟩
    by_contra hk
    rw [purchasersOf_eq_empty s k hk] at hx
    exact absurd hx (Finset.not_mem_empty x)

/-- Crediting a sale of `u` to `w` adds `u` to the union of the purchaser sets. -/
theorem unionOfPurchasers_credit {α : Type} [Zero α] (s : LoopState α) (w u : String)
    (d : Dimension α) (o : Dimension α) (hd : d.Purchasers = insert u (purchasersOf s w)) :
    unionOfPurchasers { s with overall := o, summary := s.summary.insert w d } =
      insert u (unionOfPurchasers s) := by
  ext x
  simp only [mem_unionOfPurchasers, Finset.mem_insert]
  constructor
  · rintro ⟨k, hx⟩
    by_cases hk : k = w
    · subst hk
      simp only [purchasersOf, Finmap.lookup_insert, hd, Finset.mem_insert] at hx
      rcases hx with h | h
      · exact Or.inl h
      · exact Or.inr ⟨k, h⟩
    · simp only [purchasersOf, Finmap.lookup_insert_of_ne _ hk] at hx
      exact Or.inr ⟨k, hx⟩
  · rintro (h | ⟨k, hx⟩)
    · refine ⟨w, ?_⟩
      simp [purchasersOf, Finmap.lookup_insert, hd, h]
    · by_cases hk : k = w
      · subst hk
        refine ⟨k, ?_⟩
        simp only [purchasersOf, Finmap.lookup_insert, hd, Finset.mem_insert]
        exact Or.inr hx
      · refine ⟨k, ?_⟩
        simp only [purchasersOf, Finmap.lookup_insert_of_ne _ hk]
        exact hx

/-- Crediting a sale of amount `a` to `w` adds `a` to the sum of the totals. -/
theorem sumOfTotals_credit {α : Type} [AddCommMonoid α] (s : LoopState α) (w : String)
    (d : Dimension α) (o : Dimension α) (a : α) (hd : d.TotalSales = totalOf s w + a) :
    sumOfTotals { s with overall := o, summary := s.summary.insert w d } =
      sumOfTotals s + a := by
  have h1 : ∀ k, totalOf { s with overall := o, summary := s.summary.insert w d } k =
      totalOf s k + (if w = k then a else 0) := by
    intro k
    by_cases hk : k = w
    · subst hk
      simp [totalOf, Finmap.lookup_insert, hd]
    · have hk' : ¬ w = k := fun h => hk h.symm
      simp [totalOf, Finmap.lookup_insert_of_ne _ hk, hk']
  have h2 : Finset.sum (insert w s.summary.keys) (totalOf s) = sumOfTotals s := by
    apply Finset.sum_insert_of_eq_zero_if_not_mem
    intro hw
    exact totalOf_eq_zero s w (fun h => hw (Finmap.mem_keys.mpr h))
  unfold sumOfTotals at *
  simp only [keys_insert']
  rw [Finset.sum_congr rfl (fun k _ => h1 k), Finset.sum_add_distrib, h2,
    Finset.sum_ite_eq]
  simp

/-- Overall mirrors the dimension aggregates: same purchasers as their union. -/
theorem step_keeps_union {α : Type} [Zero α] [Add α] (parseFloat : String → Option α)
    (s s' : LoopState α) (r : Record) (h : s.overall.Purchasers = unionOfPurchasers s)
    (hs : step parseFloat s r = .ok s') :
    s'.overall.Purchasers = unionOfPurchasers s' := by
  by_cases hr : r.Typ = "exposure"
  · rw [step_exposure parseFloat s r hr] at hs
    rw [← Except.ok.inj hs]
    exact h
  · cases hp : parseFloat r.Value with
    | none =>
      rw [step_parse_error parseFloat s r hr hp] at hs
      exact Except.noConfusion hs
    | some a =>
      by_cases hi : lookupImpression s.userLatestExposures r.UserID = ""
      · rw [step_unattributed parseFloat s r a hr hp hi] at hs
        rw [← Except.ok.inj hs]
        exact h
      · rw [step_attributed parseFloat s r a hr hp hi] at hs
        rw [← Except.ok.inj hs]
        rw [unionOfPurchasers_credit s _ r.UserID _ _ (by rw [fetchOrCreate_purchasers])]
        simp only [h]

/-- Overall mirrors the dimension aggregates: same total as their sum. -/
theorem step_keeps_sum {α : Type} [AddCommMonoid α] (parseFloat : String → Option α)
    (s s' : LoopState α) (r : Record) (h : s.overall.TotalSales = sumOfTotals s)
    (hs : step parseFloat s r = .ok s') :
    s'.overall.TotalSales = sumOfTotals s' := by
  by_cases hr : r.Typ = "exposure"
  · rw [step_exposure parseFloat s r hr] at hs
    rw [← Except.ok.inj hs]
    exact h
  · cases hp : parseFloat r.Value with
    | none =>
      rw [step_parse_error parseFloat s r hr hp] at hs
      exact Except.noConfusion hs
    | some a =>
      by_cases hi : lookupImpression s.userLatestExposures r.UserID = ""
      · rw [step_unattributed parseFloat s r a hr hp hi] at hs
        rw [← Except.ok.inj hs]
        exact h
      · rw [step_attributed parseFloat s r a hr hp hi] at hs
        rw [← Except.ok.inj hs]
        rw [sumOfTotals_credit s _ _ _ a (by rw [fetchOrCreate_total])]
        simp only [h]

/-- A property kept by every iteration holds when the loop ends. -/
theorem loopFrom_invariant {α : Type} [Zero α] [Add α] (parseFloat : String → Option α)
    (P : LoopState α → Prop)
    (hstep : ∀ s r s', P s → step parseFloat s r = .ok s' → P s') :
    ∀ (xs : List Record) (s s' : LoopState α), P s → loopFrom parseFloat s xs = .ok s' → P s' := by
  intro xs
  induction xs with
  | nil =>
    intro s s' hP hs
    simp only [loopFrom] at hs
    rw [← Except.ok.inj hs]
    exact hP
  | cons x xs ih =>
    intro s s' hP hs
    simp only [loopFrom] at hs
    cases hst : step parseFloat s x with
    | error e => rw [hst] at hs; exact Except.noConfusion hs
    | ok s1 =>
      rw [hst] at hs
      exact ih s1 s' (hstep s x s1 hP hst) hs

theorem sampleFinal_spec : attributionLoop parseDecimal sampleTimeline = .ok sampleFinal := by
  rfl

theorem wellKinded_sample : WellKinded sampleTimeline := by
  unfold WellKinded; decide

theorem allAmountsParse_sample : AllAmountsParse parseDecimal sampleTimeline := by
  unfold AllAmountsParse; decide

theorem isRangeOrder_sample : IsRangeOrder ["B", "A"] sampleFinal.summary := by
  unfold IsRangeOrder
  refine ⟨by decide, fun k => ?_⟩
  rw [← Finmap.mem_keys]
  have hkeys : sampleFinal.summary.keys = {"B", "A"} := by decide
  rw [hkeys]
  simp

theorem wellKinded_take (records : List Record) (n : Nat) (hk : WellKinded records) :
    WellKinded (records.take n) :=
  fun r hr => hk r (List.mem_of_mem_take hr)

theorem allAmountsParse_take {α : Type} (parseFloat : String → Option α)
    (records : List Record) (n : Nat) (hp : AllAmountsParse parseFloat records) :
    AllAmountsParse parseFloat (records.take n) :=
  fun r hr => hp r (List.mem_of_mem_take hr)

theorem sale_ne_exposure (r : Record) (hr : r.Typ = "sale") : r.Typ ≠ "exposure" := by
  rw [hr]; decide

theorem step_bumpCounter {α : Type} [Zero α] [Add α] (parseFloat : String → Option α)
    (s : LoopState α) (r : Record) :
    step parseFloat (bumpCounter s) r =
      match step parseFloat s r with
      | .error e => .error e
      | .ok s' => .ok (bumpCounter s') := by
  by_cases hr : r.Typ = "exposure"
  · simp [step_exposure, hr, bumpCounter]
  · cases hp : parseFloat r.Value with
    | none => simp [step_parse_error parseFloat _ r hr hp]
    | some a =>
      by_cases hi : lookupImpression s.userLatestExposures r.UserID = ""
      · rw [step_unattributed parseFloat s r a hr hp hi,
          step_unattributed parseFloat (bumpCounter s) r a hr hp hi]
        rfl
      · rw [step_attributed parseFloat s r a hr hp hi,
          step_attributed parseFloat (bumpCounter s) r a hr hp hi]
        rfl

theorem loopFrom_bumpCounter {α : Type} [Zero α] [Add α] (parseFloat : String → Option α)
    (xs : List Record) (s : LoopState α) :
    loopFrom parseFloat (bumpCounter s) xs =
      match loopFrom parseFloat s xs with
      | .error e => .error e
      | .ok s' => .ok (bumpCounter s') := by
  induction xs generalizing s with
  | nil => simp [loopFrom]
  | cons x xs ih =>
    simp only [loopFrom, step_bumpCounter]
    cases step parseFloat s x with
    | error e => simp
    | ok s1 => simpa using ih s1

/-- The loop reaches its end only if the amount of every event that is not an exposure
parses. -/
theorem loopFrom_ok_parses {α : Type} [Zero α] [Add α] (parseFloat : String → Option α)
    (xs : List Record) :
    ∀ (s s' : LoopState α), loopFrom parseFloat s xs = .ok s' →
      ∀ r ∈ xs, r.Typ ≠ "exposure" → (parseFloat r.Value).isSome = true := by
  induction xs with
  | nil => intro s s' _ r hr; exact absurd hr (List.not_mem_nil r)
  | cons x xs ih =>
    intro s s' hs r hr hne
    simp only [loopFrom] at hs
    cases hst : step parseFloat s x with
    | error e => rw [hst] at hs; exact Except.noConfusion hs
    | ok s1 =>
      rw [hst] at hs
      rcases List.mem_cons.mp hr with h | h
      · subst h
        cases hp : parseFloat r.Value with
        | none =>
          rw [step_parse_error parseFloat s r hne hp] at hst
          exact Except.noConfusion hst
        | some a => rfl
      · exact ih s1 s' hs r h hne

/-- On a well-kinded timeline the loop fails exactly when some sale amount does not parse. -/
theorem loop_error_iff {α : Type} [Zero α] [Add α] (parseFloat : String → Option α)
    (records : List Record) (hk : WellKinded records) :
    (∃ e, attributionLoop parseFloat records = .error e) ↔
      ∃ r ∈ records, r.Typ = "sale" ∧ parseFloat r.Value = none := by
  constructor
  · rintro ⟨e, he⟩
    by_contra hno
    have hp : AllAmountsParse parseFloat records := by
      intro r hr hsale
      cases hv : parseFloat r.Value with
      | none => exact absurd ⟨r, hr, hsale, hv⟩ hno
      | some a => rfl
    obtain ⟨s, hs⟩ := loop_succeeds parseFloat records hk hp
    rw [hs] at he
    exact Except.noConfusion he
  · rintro ⟨r, hr, hsale, hnone⟩
    cases hl : attributionLoop parseFloat records with
    | error e => exact ⟨e, rfl⟩
    | ok s =>
      have := loopFrom_ok_parses parseFloat records initState s hl r hr
        (sale_ne_exposure r hsale)
      rw [hnone] at this
      exact Bool.noConfusion this

theorem parseDecimal_sample_30 : parseDecimal "30.00" = some 30 := by decide!

theorem lessOk_timelineLess : LessOk timelineLess := by
  refine ⟨?_, ?_, ?_⟩
  · intro a
    simp [timelineLess]
  · intro a b c hab hbc
    simp only [timelineLess, decide_eq_true_eq] at *
    exact lt_trans hab hbc
  · intro a b c hab hbc
    simp only [timelineLess, decide_eq_false_iff_not, not_lt] at *
    exact le_trans hbc hab

theorem orderedInsert_eq (less : Record → Record → Bool) (x : Record) (xs : List Record) :
    orderedInsert less x xs = List.orderedInsert (fun a b => less b a = false) x xs := by
  induction xs with
  | nil => rfl
  | cons y ys ih =>
    simp only [orderedInsert, List.orderedInsert]
    by_cases h : less y x = true
    · simp [h, ih]
    · simp [h]

theorem stableSort_eq (less : Record → Record → Bool) (xs : List Record) :
    stableSort less xs = List.insertionSort (fun a b => less b a = false) xs := by
  induction xs with
  | nil => rfl
  | cons y ys ih => simp only [stableSort, List.insertionSort, ih, orderedInsert_eq]

/-- The stable sort meets what is promised of `sort.Slice`. -/
theorem sortContract_stableSort : SortContract stableSort := by
  intro less xs hl
  rw [stableSort_eq]
  haveI : IsTotal Record (fun a b => less b a = false) :=
    ⟨fun a b => by
      cases hba : less b a
      · exact Or.inl rfl
      · right
        cases hab : less a b
        · rfl
        · have := hl.trans a b a hab hba
          rw [hl.irrefl a] at this
          exact Bool.noConfusion this⟩
  haveI : IsTrans Record (fun a b => less b a = false) :=
    ⟨fun a b c hab hbc => hl.negTrans c b a hbc hab⟩
  exact ⟨List.perm_insertionSort _ xs, List.sorted_insertionSort _ xs⟩

theorem wellKinded_bad : WellKinded badTimeline := by
  unfold WellKinded; decide

/-- Reversing first stays within what is promised of `sort.Slice`. -/
theorem sortContract_reverseThenSort : SortContract reverseThenSort := by
  intro less xs hl
  obtain ⟨hperm, hsorted⟩ := sortContract_stableSort less xs.reverse hl
  exact ⟨hperm.trans (List.reverse_perm xs), hsorted⟩

/-- Two orderings by timestamp of the same events are equal when no two of the events
share a timestamp. -/
theorem sorted_perm_unique (l l1 l2 : List Record)
    (hties : l.Pairwise (fun a b => a.Timestamp ≠ b.Timestamp))
    (hp1 : l1.Perm l) (hp2 : l2.Perm l)
    (hs1 : l1.Pairwise (fun a b => timelineLess b a = false))
    (hs2 : l2.Pairwise (fun a b => timelineLess b a = false)) : l1 = l2 := by
  have hinj : ∀ a b, a ∈ l → b ∈ l → a.Timestamp = b.Timestamp → a = b := by
    intro a b ha hb hab
    by_contra hne
    exact hties.forall (fun x y h => Ne.symm h) ha hb hne hab
  refine List.Perm.eq_of_sorted ?_ hs1 hs2 (hp1.trans hp2.symm)
  intro a b ha hb hab hba
  simp only [timelineLess, decide_eq_false_iff_not, not_lt] at hab hba
  exact hinj a b (hp1.mem_iff.mp ha) (hp2.mem_iff.mp hb) (le_antisymm hab hba)

theorem sample_lookup_B : ∃ d, sampleFinal.summary.lookup "B" = some d :=
  Option.isSome_iff_exists.mp (by decide)

/-! ## The timelines of `run` -/

theorem parseLine_typ (parseTime : String → Option Int) (recordType : String)
    (l : List String) (r : Record) (h : parseLine parseTime recordType l = .ok r) :
    r.Typ = recordType := by
  unfold parseLine at h
  split at h
  · exact Except.noConfusion h
  · split at h
    · exact Except.noConfusion h
    · split at h
      · rw [← Except.ok.inj h]
      · exact Except.noConfusion h

theorem parseLines_typ (parseTime : String → Option Int) (recordType : String)
    (ls : List (List String)) :
    ∀ (acc rs : List Record), parseLines parseTime recordType ls acc = .ok rs →
      (∀ r ∈ acc, r.Typ = recordType) → ∀ r ∈ rs, r.Typ = recordType := by
  induction ls with
  | nil =>
    intro acc rs h hacc
    simp only [parseLines] at h
    rw [← Except.ok.inj h]
    exact hacc
  | cons l ls ih =>
    intro acc rs h hacc
    simp only [parseLines] at h
    cases hl : parseLine parseTime recordType l with
    | error e => rw [hl] at h; exact Except.noConfusion h
    | ok r0 =>
      rw [hl] at h
      refine ih (acc ++ [r0]) rs h ?_
      intro r hr
      rcases List.mem_append.mp hr with hr | hr
      · exact hacc r hr
      · rw [List.mem_singleton.mp hr]
        exact parseLine_typ parseTime recordType l r0 hl

theorem parseFileIntoRecords_typ (readAll : String → Option (List (List String)))
    (parseTime : String → Option Int) (filename recordType : String) (rs : List Record)
    (h : ParseFileIntoRecords readAll parseTime filename recordType = .ok rs) :
    ∀ r ∈ rs, r.Typ = recordType := by
  unfold ParseFileIntoRecords at h
  cases hc : ParseCSV readAll filename with
  | error e => rw [hc] at h; exact Except.noConfusion h
  | ok lines =>
    rw [hc] at h
    exact parseLines_typ parseTime recordType lines [] rs h
      (fun r hr => absurd hr (List.not_mem_nil r))

/-- Every timeline that `run` builds from its two files is well-kinded, provided
`sort.Slice` only rearranges. -/
theorem wellKinded_mergeTimeline {α : Type} (lib : Lib α) (impressions sales : List Record)
    (h1 : ParseFileIntoRecords lib.readAll lib.parseTime "ad_exposures.csv" "exposure" =
      .ok impressions)
    (h2 : ParseFileIntoRecords lib.readAll lib.parseTime "sales_data.csv" "sale" = .ok sales)
    (hperm : (mergeTimeline lib.sortSlice impressions sales).Perm (impressions ++ sales)) :
    WellKinded (mergeTimeline lib.sortSlice impressions sales) := by
  intro r hr
  rcases List.mem_append.mp (hperm.mem_iff.mp hr) with h | h
  · exact Or.inl (parseFileIntoRecords_typ _ _ _ _ impressions h1 r h)
  · exact Or.inr (parseFileIntoRecords_typ _ _ _ _ sales h2 r h)

theorem run_eq_runTimeline {α : Type} [Zero α] [Add α] (lib : Lib α)
    (impressions sales : List Record)
    (h1 : ParseFileIntoRecords lib.readAll lib.parseTime "ad_exposures.csv" "exposure" =
      .ok impressions)
    (h2 : ParseFileIntoRecords lib.readAll lib.parseTime "sales_data.csv" "sale" = .ok sales) :
    run lib = runTimeline lib (mergeTimeline lib.sortSlice impressions sales) := by
  simp only [run, h1, h2]

theorem parseLine_three_some (parseTime : String → Option Int) (recordType : String)
    (u t v : String) (rest : List String) (ts : Int) (h : parseTime t = some ts) :
    parseLine parseTime recordType (u :: t :: v :: rest) =
      .ok { UserID := u, Timestamp := ts, Typ := recordType, Value := v } := by
  simp [parseLine, h]

theorem parseLine_three_none (parseTime : String → Option Int) (recordType : String)
    (u t v : String) (rest : List String) (h : parseTime t = none) :
    parseLine parseTime recordType (u :: t :: v :: rest) =
      .error (Failure.timeParseError t) := by
  simp [parseLine, h]

theorem rowRecord_three_some (parseTime : String → Option Int) (recordType : String)
    (u t v : String) (rest : List String) (ts : Int) (h : parseTime t = some ts) :
    rowRecord parseTime recordType (u :: t :: v :: rest) =
      some { UserID := u, Timestamp := ts, Typ := recordType, Value := v } := by
  simp [rowRecord, h]

theorem rowRecord_three_none (parseTime : String → Option Int) (recordType : String)
    (u t v : String) (rest : List String) (h : parseTime t = none) :
    rowRecord parseTime recordType (u :: t :: v :: rest) = none := by
  simp [rowRecord, h]

theorem exists_three_of_length {l : List String} (h : 3 ≤ l.length) :
    ∃ u t v rest, l = u :: t :: v :: rest := by
  match l, h with
  | u :: t :: v :: rest, _ => exact ⟨u, t, v, rest, rfl⟩

/-- On a row with at least three fields the loop body yields the specified record, and
fails exactly when the second field is not a timestamp. -/
theorem parseLine_eq_rowRecord (parseTime : String → Option Int) (recordType : String)
    (l : List String) (h : 3 ≤ l.length) :
    (∀ r, parseLine parseTime recordType l = .ok r ↔ rowRecord parseTime recordType l = some r) ∧
      ((∃ e, parseLine parseTime recordType l = .error e) ↔
        rowRecord parseTime recordType l = none) ∧
      ∀ e, parseLine parseTime recordType l = .error e → ∃ t, e = Failure.timeParseError t := by
  obtain ⟨u, t, v, rest, rfl⟩ := exists_three_of_length h
  cases hpt : parseTime t with
  | none =>
    rw [parseLine_three_none parseTime recordType u t v rest hpt,
      rowRecord_three_none parseTime recordType u t v rest hpt]
    simp
  | some ts =>
    rw [parseLine_three_some parseTime recordType u t v rest ts hpt,
      rowRecord_three_some parseTime recordType u t v rest ts hpt]
    simp

/-- The loader loop on rows with at least three fields: it succeeds exactly when every
row has its record, and then returns the records built so far followed by one record per
row, in order. -/
theorem parseLines_ok_iff (parseTime : String → Option Int) (recordType : String)
    (rows : List (List String)) (h3 : ∀ l ∈ rows, 3 ≤ l.length) :
    ∀ (acc rs : List Record),
      parseLines parseTime recordType rows acc = .ok rs ↔
        ∃ recs, rows.map (rowRecord parseTime recordType) = recs.map some ∧
          rs = acc ++ recs := by
  induction rows with
  | nil =>
    intro acc rs
    simp only [parseLines, List.map_nil]
    constructor
    · intro h
      exact ⟨[], rfl, by rw [← Except.ok.inj h]; simp⟩
    · rintro ⟨recs, hrecs, rfl⟩
      have : recs = [] := by
        cases recs with
        | nil => rfl
        | cons a b => simp at hrecs
      rw [this]; simp
  | cons l ls ih =>
    intro acc rs
    have hl := parseLine_eq_rowRecord parseTime recordType l (h3 l (List.mem_cons_self _ _))
    have ih' := ih (fun x hx => h3 x (List.mem_cons_of_mem _ hx))
    simp only [parseLines, List.map_cons]
    cases hp : parseLine parseTime recordType l with
    | error e =>
      have hnone := hl.2.1.mp ⟨e, hp⟩
      simp only [hnone]
      constructor
      · intro h; exact Except.noConfusion h
      · rintro ⟨recs, hrecs, _⟩
        cases recs with
        | nil => simp at hrecs
        | cons a b => simp at hrecs
    | ok r =>
      have hsome := (hl.1 r).mp hp
      simp only [hsome]
      rw [ih' (acc ++ [r]) rs]
      constructor
      · rintro ⟨recs, hrecs, rfl⟩
        exact ⟨r :: recs, by simp [hrecs], by simp⟩
      · rintro ⟨recs, hrecs, rfl⟩
        cases recs with
        | nil => simp at hrecs
        | cons a b =>
          simp only [List.map_cons, List.cons.injEq, Option.some.injEq] at hrecs
          exact ⟨b, hrecs.2, by rw [hrecs.1]; simp⟩

/-- The loader loop ends with records or with a failure that is a timestamp error, on rows
with at least three fields. -/
theorem parseLines_error (parseTime : String → Option Int) (recordType : String)
    (rows : List (List String)) (h3 : ∀ l ∈ rows, 3 ≤ l.length) :
    ∀ (acc : List Record) (e : Failure),
      parseLines parseTime recordType rows acc = .error e → ∃ t, e = Failure.timeParseError t := by
  induction rows with
  | nil => intro acc e h; simp [parseLines] at h
  | cons l ls ih =>
    intro acc e h
    have hl := parseLine_eq_rowRecord parseTime recordType l (h3 l (List.mem_cons_self _ _))
    simp only [parseLines] at h
    cases hp : parseLine parseTime recordType l with
    | error e' =>
      rw [hp] at h
      rw [← Except.error.inj h]
      exact hl.2.2 e' hp
    | ok r =>
      rw [hp] at h
      exact ih (fun x hx => h3 x (List.mem_cons_of_mem _ hx)) _ e h

theorem parseFileIntoRecords_of_read (readAll : String → Option (List (List String)))
    (parseTime : String → Option Int) (filename recordType : String) (header : List String)
    (rows : List (List String)) (hread : readAll filename = some (header :: rows)) :
    ParseFileIntoRecords readAll parseTime filename recordType =
      parseLines parseTime recordType rows [] := by
  simp [ParseFileIntoRecords, ParseCSV, hread]

theorem map_rowRecord_eq_some_iff (parseTime : String → Option Int) (recordType : String)
    (rows : List (List String)) :
    (∃ recs : List Record, rows.map (rowRecord parseTime recordType) = recs.map some) ↔
      ∀ l ∈ rows, ∃ r, rowRecord parseTime recordType l = some r := by
  induction rows with
  | nil => simp
  | cons l ls ih =>
    constructor
    · rintro ⟨recs, hrecs⟩
      cases recs with
      | nil => simp at hrecs
      | cons a b =>
        simp only [List.map_cons, List.cons.injEq] at hrecs
        intro x hx
        rcases List.mem_cons.mp hx with rfl | hx
        · exact ⟨a, hrecs.1⟩
        · exact ih.mp ⟨b, hrecs.2⟩ x hx
    · intro h
      obtain ⟨a, ha⟩ := h l (List.mem_cons_self _ _)
      obtain ⟨b, hb⟩ := ih.mpr (fun x hx => h x (List.mem_cons_of_mem _ hx))
      exact ⟨a :: b, by simp [ha, hb]⟩

theorem getElem?_of_map_eq_map_some {β γ : Type} (f : β → Option γ) (xs : List β)
    (ys : List γ) (h : xs.map f = ys.map some) (i : Nat) (x : β) (hx : xs[i]? = some x) :
    ∃ y, ys[i]? = some y ∧ f x = some y := by
  have hi := congrArg (fun l => l[i]?) h
  simp only [List.getElem?_map, hx, Option.map_some'] at hi
  cases hy : ys[i]? with
  | none => rw [hy] at hi; simp at hi
  | some y =>
    rw [hy] at hi
    simp only [Option.map_some', Option.some.injEq] at hi
    exact ⟨y, rfl, hi⟩

theorem dimensionRows_eq_map {α : Type} (formatFloat : α → String)
    (summary : GoMap (Dimension α)) (order : List String)
    (hmem : ∀ k ∈ order, k ∈ summary) :
    order.filterMap (fun k => (summary.lookup k).map (dimensionRow formatFloat k)) =
      order.map (rowOfKey formatFloat summary) := by
  induction order with
  | nil => rfl
  | cons k ks ih =>
    obtain ⟨d, hd⟩ := Finmap.mem_iff.mp (hmem k (List.mem_cons_self _ _))
    rw [List.filterMap_cons, List.map_cons, ih (fun x hx => hmem x (List.mem_cons_of_mem _ hx))]
    simp [hd, rowOfKey]

theorem buildTable_eq {α : Type} (formatFloat : α → String) (order : List String)
    (overall : Dimension α) (summary : GoMap (Dimension α))
    (ho : IsRangeOrder order summary) :
    buildTable formatFloat order overall summary =
      headerRow :: overallRow formatFloat overall ::
        order.map (rowOfKey formatFloat summary) := by
  unfold buildTable
  rw [dimensionRows_eq_map formatFloat summary order (fun k hk => (ho.2 k).mp hk)]

theorem rangeOrder_length {β : Type} (order : List String) (m : GoMap β)
    (ho : IsRangeOrder order m) : order.length = m.keys.card := by
  have h : order.toFinset = m.keys := by
    ext k
    rw [List.mem_toFinset, Finmap.mem_keys]
    exact ho.2 k
  rw [← h, List.toFinset_card_of_nodup ho.1]

theorem rangeOrder_perm {β : Type} (o1 o2 : List String) (m : GoMap β)
    (h1 : IsRangeOrder o1 m) (h2 : IsRangeOrder o2 m) : o1.Perm o2 :=
  (List.perm_ext_iff_of_nodup h1.1 h2.1).mpr (fun k => (h1.2 k).trans (h2.2 k).symm)

theorem isRangeOrder_sort {β : Type} (m : GoMap β) :
    IsRangeOrder (m.keys.sort (fun a b => a ≤ b)) m :=
  ⟨Finset.sort_nodup _ _, fun k => by rw [Finset.mem_sort, Finmap.mem_keys]⟩

theorem isRangeOrder_sort_reverse {β : Type} (m : GoMap β) :
    IsRangeOrder (m.keys.sort (fun a b => a ≤ b)).reverse m :=
  ⟨List.nodup_reverse.mpr (Finset.sort_nodup _ _),
    fun k => by rw [List.mem_reverse, Finset.mem_sort, Finmap.mem_keys]⟩

theorem creditedAt_empty (records : List Record) (i : Nat) :
    creditedAt records "" i = false := by
  unfold creditedAt
  cases records[i]? <;> simp

theorem creditedSales_empty (records : List Record) : creditedSales records "" = [] := by
  unfold creditedSales
  simp [creditedAt_empty]

theorem dimensionFields_buildTable {α : Type} (formatFloat : α → String)
    (order : List String) (overall : Dimension α) (summary : GoMap (Dimension α))
    (ho : IsRangeOrder order summary) :
    dimensionFields (buildTable formatFloat order overall summary) = "overall" :: order := by
  rw [buildTable_eq formatFloat order overall summary ho]
  unfold dimensionFields
  simp only [List.drop_succ_cons, List.drop_zero, List.map_cons, List.map_map]
  congr 1
  conv_rhs => rw [← List.map_id order]
  apply List.map_congr_left
  intro k hk
  obtain ⟨d, hd⟩ := Finmap.mem_iff.mp ((ho.2 k).mp hk)
  simp [rowOfKey, hd, dimensionRow]

/-- One iteration removes no key of `summary`. -/
theorem step_keeps_key {α : Type} [Zero α] [Add α] (parseFloat : String → Option α)
    (v : String) (s s' : LoopState α) (r : Record) (h : v ∈ s.summary)
    (hs : step parseFloat s r = .ok s') : v ∈ s'.summary := by
  by_cases hr : r.Typ = "exposure"
  · rw [step_exposure parseFloat s r hr] at hs
    rw [← Except.ok.inj hs]
    exact h
  · cases hp : parseFloat r.Value with
    | none =>
      rw [step_parse_error parseFloat s r hr hp] at hs
      exact Except.noConfusion hs
    | some a =>
      by_cases hi : lookupImpression s.userLatestExposures r.UserID = ""
      · rw [step_unattributed parseFloat s r a hr hp hi] at hs
        rw [← Except.ok.inj hs]
        exact h
      · rw [step_attributed parseFloat s r a hr hp hi] at hs
        rw [← Except.ok.inj hs]
        exact Finmap.mem_insert.mpr (Or.inr h)

/-- The state after `n` events is reached from the state after `m ≤ n` events by the
events in between. -/
theorem loop_take_split {α : Type} [Zero α] [Add α] (parseFloat : String → Option α)
    (records : List Record) (m n : Nat) (hmn : m ≤ n) (s0 s : LoopState α)
    (h0 : attributionLoop parseFloat (records.take m) = .ok s0)
    (hs : attributionLoop parseFloat (records.take n) = .ok s) :
    loopFrom parseFloat s0 ((records.take n).drop m) = .ok s := by
  have hsplit : records.take n = records.take m ++ (records.take n).drop m := by
    conv_lhs => rw [← List.take_append_drop m (records.take n)]
    rw [List.take_take, Nat.min_eq_left hmn]
  unfold attributionLoop at h0 hs
  rw [hsplit, loopFrom_append, h0] at hs
  exact hs

theorem sampleAfterFive_spec :
    attributionLoop parseDecimal (sampleTimeline.take 5) = .ok sampleAfterFive := by
  rfl

theorem isRangeOrder_sampleAfterFive : IsRangeOrder ["A"] sampleAfterFive.summary := by
  unfold IsRangeOrder
  refine ⟨by decide, fun k => ?_⟩
  rw [← Finmap.mem_keys]
  have hkeys : sampleAfterFive.summary.keys = {"A"} := by decide
  rw [hkeys]
  simp

/-- What the loop body does for a sale credited to `v`, on the aggregates. -/
theorem step_credit {α : Type} [Zero α] [Add α] (parseFloat : String → Option α)
    (s : LoopState α) (r : Record) (a : α) (v : String) (hr : r.Typ = "sale")
    (hp : parseFloat r.Value = some a) (hl : s.userLatestExposures.lookup r.UserID = some v)
    (hv : v ≠ "") :
    step parseFloat s r =
      .ok { s with
        overall :=
          { s.overall with
            TotalSales := s.overall.TotalSales + a
            Purchasers := insert r.UserID s.overall.Purchasers }
        summary :=
          s.summary.insert v
            { fetchOrCreate s.summary v with
              Purchasers := insert r.UserID (purchasersOf s v)
              TotalSales := totalOf s v + a } } := by
  have hi : lookupImpression s.userLatestExposures r.UserID = v :=
    lookupImpression_of_some _ _ _ hl
  have hne : lookupImpression s.userLatestExposures r.UserID ≠ "" := by rw [hi]; exact hv
  rw [step_attributed parseFloat s r a (sale_ne_exposure r hr) hp hne, hi,
    fetchOrCreate_purchasers, fetchOrCreate_total]

/-- The loop stops at the first sale whose amount does not parse, with the error of
`strconv.ParseFloat` for that text. -/
theorem loopFrom_error_of_bad_amount {α : Type} [Zero α] [Add α]
    (parseFloat : String → Option α) (xs : List Record) :
    ∀ (s : LoopState α), (∃ r ∈ xs, r.Typ ≠ "exposure" ∧ parseFloat r.Value = none) →
      ∃ r ∈ xs, r.Typ ≠ "exposure" ∧ parseFloat r.Value = none ∧
        loopFrom parseFloat s xs = .error (Failure.parseFloatError r.Value) := by
  induction xs with
  | nil => rintro s ⟨r, hr, _⟩; exact absurd hr (List.not_mem_nil r)
  | cons x xs ih =>
    rintro s ⟨r, hr, hne, hp⟩
    simp only [loopFrom]
    cases hst : step parseFloat s x with
    | error e =>
      obtain ⟨hx, hpx, rfl⟩ := (step_error_iff parseFloat s x e).mp hst
      exact ⟨x, List.mem_cons_self _ _, hx, hpx, rfl⟩
    | ok s1 =>
      have hmem : r ∈ xs := by
        rcases List.mem_cons.mp hr with rfl | h
        · rw [step_parse_error parseFloat s r hne hp] at hst
          exact Except.noConfusion hst
        · exact h
      obtain ⟨r', hr', hne', hp', hl⟩ := ih s1 ⟨r, hmem, hne, hp⟩
      exact ⟨r', List.mem_cons_of_mem _ hr', hne', hp', hl⟩

theorem runTimeline_of_success {α : Type} [Zero α] [Add α] (lib : Lib α)
    (records : List Record) (hf : (runTimeline lib records).failure = none) :
    ∃ s, attributionLoop lib.parseFloat records = .ok s ∧
      (runTimeline lib records).out =
        buildTable lib.formatFloat (lib.rangeOrder s.summary) s.overall s.summary := by
  unfold runTimeline at hf ⊢
  cases hl : attributionLoop lib.parseFloat records with
  | error e => simp [hl, Outcome.early] at hf
  | ok s =>
    refine ⟨s, rfl, ?_⟩
    simp only
    split_ifs <;> rfl

/-! ## Numerals with two decimals -/

theorem digitValue_digitChar : ∀ d, d < 10 →
    (Nat.digitChar d).isDigit = true ∧ digitValue (Nat.digitChar d) = some d := by
  decide

theorem digitsValue_append (xs ys : List Char) :
    ∀ (acc v : Nat), digitsValue xs acc = some v →
      digitsValue (xs ++ ys) acc = digitsValue ys v := by
  induction xs with
  | nil => intro acc v h; simp only [digitsValue, Option.some.injEq] at h; rw [h]; rfl
  | cons c cs ih =>
    intro acc v h
    simp only [digitsValue, List.cons_append] at h ⊢
    cases hc : digitValue c with
    | none => rw [hc] at h; exact Option.noConfusion h
    | some d =>
      rw [hc] at h
      exact ih _ _ h

/-- The digits `Nat.toDigitsCore` puts in front of `ds`: they are decimal digits, there
is at least one, and they write `n`. -/
theorem toDigitsCore_spec (fuel : Nat) :
    ∀ (n : Nat) (ds : List Char), n < fuel →
      ∃ front, Nat.toDigitsCore 10 fuel n ds = front ++ ds ∧ front ≠ [] ∧
        (∀ c ∈ front, c.isDigit = true) ∧
        ∀ acc, digitsValue front acc = some (acc * 10 ^ front.length + n) := by
  induction fuel with
  | zero => intro n ds h; exact absurd h (Nat.not_lt_zero n)
  | succ k ih =>
    intro n ds hn
    have hd := digitValue_digitChar (n % 10) (Nat.mod_lt n (by decide))
    simp only [Nat.toDigitsCore]
    by_cases h0 : n / 10 = 0
    · simp only [h0, if_true]
      refine ⟨[Nat.digitChar (n % 10)], rfl, by simp, ?_, ?_⟩
      · intro c hc
        rw [List.mem_singleton.mp hc]; exact hd.1
      · intro acc
        have hlt : n < 10 := by omega
        simp only [digitsValue, hd.2, List.length_singleton, pow_one]
        congr 1
        omega
    · simp only [h0, if_false]
      have hlt : n / 10 < k := by omega
      obtain ⟨front, hf, hne, hdig, hval⟩ := ih (n / 10) (Nat.digitChar (n % 10) :: ds) hlt
      refine ⟨front ++ [Nat.digitChar (n % 10)], by rw [hf]; simp, by simp, ?_, ?_⟩
      · intro c hc
        rcases List.mem_append.mp hc with h | h
        · exact hdig c h
        · rw [List.mem_singleton.mp h]; exact hd.1
      · intro acc
        rw [digitsValue_append front _ acc _ (hval acc)]
        simp only [digitsValue, hd.2, List.length_append, List.length_singleton, pow_succ]
        congr 1
        have := Nat.div_add_mod n 10
        nlinarith [Nat.div_add_mod n 10]

theorem toDigits_spec (n : Nat) :
    Nat.toDigits 10 n ≠ [] ∧ (∀ c ∈ Nat.toDigits 10 n, c.isDigit = true) ∧
      digitsValue (Nat.toDigits 10 n) 0 = some n := by
  obtain ⟨front, hf, hne, hdig, hval⟩ := toDigitsCore_spec (n + 1) n [] (Nat.lt_succ_self n)
  have h : Nat.toDigits 10 n = front := by
    simp only [Nat.toDigits, hf, List.append_nil]
  rw [h]
  refine ⟨hne, hdig, ?_⟩
  rw [hval 0]; simp

theorem toDigits_two (m : Nat) (hm : m < 100) :
    (if m < 10 then ['0'] else []) ++ Nat.toDigits 10 m =
      [Nat.digitChar (m / 10), Nat.digitChar (m % 10)] := by
  revert m
  decide

theorem formatTwoDecimals_toList (q : ℚ) :
    (formatTwoDecimals q).toList =
      (if q < 0 then ['-'] else []) ++
        (Nat.toDigits 10 (roundHalfEven (|q| * 100) / 100) ++
          '.' :: [Nat.digitChar (roundHalfEven (|q| * 100) % 100 / 10),
            Nat.digitChar (roundHalfEven (|q| * 100) % 100 % 10)]) := by
  have h2 := toDigits_two (roundHalfEven (|q| * 100) % 100) (Nat.mod_lt _ (by decide))
  simp only [formatTwoDecimals, String.toList, String.data_append, toString, Nat.repr,
    List.asString, List.append_assoc]
  rw [← h2]
  by_cases hq : q < 0 <;> by_cases hm : roundHalfEven (|q| * 100) % 100 < 10 <;> simp [hq, hm]

theorem unsignedTwoDecimalValue_cents (c : Nat) :
    unsignedTwoDecimalValue
        (Nat.toDigits 10 (c / 100) ++
          '.' :: [Nat.digitChar (c % 100 / 10), Nat.digitChar (c % 100 % 10)]) =
      some ((c : ℚ) / 100) := by
  obtain ⟨hne, hdig, hval⟩ := toDigits_spec (c / 100)
  have ha := digitValue_digitChar (c % 100 / 10) (by omega)
  have hb := digitValue_digitChar (c % 100 % 10) (by omega)
  have hdot : Char.isDigit '.' = false := by decide
  have htake : List.takeWhile Char.isDigit
      (Nat.toDigits 10 (c / 100) ++
        '.' :: [Nat.digitChar (c % 100 / 10), Nat.digitChar (c % 100 % 10)]) =
      Nat.toDigits 10 (c / 100) := by
    rw [List.takeWhile_append_of_pos hdig, List.takeWhile_cons_of_neg (by simp [hdot]),
      List.append_nil]
  have hdrop : List.dropWhile Char.isDigit
      (Nat.toDigits 10 (c / 100) ++
        '.' :: [Nat.digitChar (c % 100 / 10), Nat.digitChar (c % 100 % 10)]) =
      '.' :: [Nat.digitChar (c % 100 / 10), Nat.digitChar (c % 100 % 10)] := by
    rw [List.dropWhile_append_of_pos hdig, List.dropWhile_cons_of_neg (by simp [hdot])]
  unfold unsignedTwoDecimalValue
  rw [hdrop, htake]
  simp only [hne, if_false, hval, ha.2, hb.2, Option.some.injEq]
  have h1 : 10 * (c % 100 / 10) + c % 100 % 10 = c % 100 := by omega
  rw [h1]
  have h2 : (c : ℚ) = ((c / 100 : Nat) : ℚ) * 100 + ((c % 100 : Nat) : ℚ) := by
    exact_mod_cast (Nat.div_add_mod' c 100).symm
  rw [h2]
  field_simp

theorem roundHalfEven_near (x : ℚ) (hx : 0 ≤ x) : |(roundHalfEven x : ℚ) - x| ≤ 1 / 2 := by
  have hfl : (0 : ℤ) ≤ Rat.floor x := by
    exact (Int.floor_nonneg (α := ℚ)).mpr hx
  have hcast : (((Rat.floor x).toNat : Nat) : ℚ) = ((Rat.floor x : ℤ) : ℚ) := by
    have := Int.toNat_of_nonneg hfl
    exact_mod_cast this
  have hle : ((Rat.floor x : ℤ) : ℚ) ≤ x := by
    exact Int.floor_le x
  have hlt : x < ((Rat.floor x : ℤ) : ℚ) + 1 := by
    exact Int.lt_floor_add_one x
  unfold roundHalfEven
  simp only
  rw [abs_le]
  split_ifs with h1 h2 h3
  · constructor <;> linarith
  · push_cast; constructor <;> linarith
  · have : x - ((Rat.floor x).toNat : ℚ) = 1 / 2 := le_antisymm (not_lt.mp h2) (not_lt.mp h1)
    constructor <;> linarith
  · have : x - ((Rat.floor x).toNat : ℚ) = 1 / 2 := le_antisymm (not_lt.mp h2) (not_lt.mp h1)
    push_cast; constructor <;> linarith

/-- What `formatTwoDecimals` writes is a numeral with two decimals, and the number it
writes is within half a hundredth of `q`. -/
theorem twoDecimalValue_formatTwoDecimals (q : ℚ) :
    ∃ v, twoDecimalValue (formatTwoDecimals q) = some v ∧ |v - q| ≤ 1 / 200 := by
  have hnear := roundHalfEven_near (|q| * 100) (by positivity)
  have hc := unsignedTwoDecimalValue_cents (roundHalfEven (|q| * 100))
  have hbound : abs ((roundHalfEven (|q| * 100) : ℚ) / 100 - abs q) ≤ 1 / 200 := by
    rw [abs_le] at hnear ⊢
    constructor <;> linarith [hnear.1, hnear.2]
  unfold twoDecimalValue
  rw [formatTwoDecimals_toList]
  generalize roundHalfEven (|q| * 100) = c at *
  by_cases hq : q < 0
  · refine ⟨-((c : ℚ) / 100), ?_, ?_⟩
    · simp only [hq, if_true, List.singleton_append, hc, Option.map_some']
    · rw [abs_of_neg hq] at hbound
      rw [abs_le] at hbound ⊢
      constructor <;> linarith [hbound.1, hbound.2]
  · refine ⟨(c : ℚ) / 100, ?_, ?_⟩
    · simp only [hq, if_false, List.nil_append]
      obtain ⟨hne, hdig, _⟩ := toDigits_spec (c / 100)
      split
      · next cs heq =>
        exfalso
        have hmem : '-' ∈ Nat.toDigits 10 (c / 100) := by
          cases hd : Nat.toDigits 10 (c / 100) with
          | nil => exact absurd hd hne
          | cons d tl =>
            rw [hd] at heq
            simp only [List.cons_append, List.cons.injEq] at heq
            rw [heq.1]
            exact List.mem_cons_self _ _
        exact absurd (hdig _ hmem) (by decide)
      · exact hc
    · rw [abs_of_nonneg (not_lt.mp hq)] at hbound
      exact hbound

/-- What `formatGoFloat` writes for a finite value is that value rounded to two
decimals; what it writes for NaN or an infinity is no numeral with two decimals. -/
theorem formatGoFloat_spec (x : GoFloat64) :
    (∀ q, x = GoFloat64.finite q → IsTwoDecimalRounding q (formatGoFloat x)) ∧
      ((∀ q, x ≠ GoFloat64.finite q) → twoDecimalValue (formatGoFloat x) = none) := by
  cases x with
  | finite q =>
    refine ⟨?_, fun h => absurd rfl (h q)⟩
    intro q' hq
    cases hq
    exact twoDecimalValue_formatTwoDecimals q
  | nan => exact ⟨fun q h => GoFloat64.noConfusion h, fun _ => by decide⟩
  | posInf => exact ⟨fun q h => GoFloat64.noConfusion h, fun _ => by decide⟩
  | negInf => exact ⟨fun q h => GoFloat64.noConfusion h, fun _ => by decide⟩

/-! # The claims -/

/-- C1. When every sale amount of a timeline parses, the attribution loop reaches its end
and the total it holds for each dimension `v` is, in exact arithmetic, the sum of the
amounts of the sale events whose user's most recent earlier exposure carries the non-empty
value `v` (an aggregate for `v` exists as soon as there is such a sale); sales whose
latest exposure is another value add nothing to `v`. -/
theorem total_sales_is_sum_of_credited_amounts {α : Type} [AddCommMonoid α]
    (parseFloat : String → Option α) (records : List Record) (hk : WellKinded records)
    (hp : AllAmountsParse parseFloat records) :
    ∃ s, attributionLoop parseFloat records = .ok s ∧
      ∀ v, totalOf s v = ((creditedSales records v).map (amountOf parseFloat)).sum ∧
        (creditedSales records v ≠ [] →
          ∃ d, s.summary.lookup v = some d ∧
            d.TotalSales = ((creditedSales records v).map (amountOf parseFloat)).sum) := by
  obtain ⟨s, hs⟩ := loop_succeeds parseFloat records hk hp
  have ht := tracks_loop parseFloat records hk s hs
  have htot : ∀ v, totalOf s v =
      ((creditedSales records v).map (amountOf parseFloat)).sum := by
    intro v
    rw [ht.totals v, addUp_eq_sum]
  refine ⟨s, hs, fun v => ⟨htot v, fun hne => ?_⟩⟩
  obtain ⟨d, hd⟩ := Finmap.mem_iff.mp ((ht.keys v).mpr hne)
  refine ⟨d, hd, ?_⟩
  rw [← htot v]
  simp [totalOf, hd]

/-- Witness of C1: on the sample timeline `U3` sees `A`, then `B`, then buys for `10.00`
and `2.50`; both sales are credited to `B` and none to `A`, whose only sale is that of
`U1` for `50.00`. -/
theorem total_sales_is_sum_of_credited_amounts_witness :
    WellKinded sampleTimeline ∧ AllAmountsParse parseDecimal sampleTimeline ∧
      (creditedSales sampleTimeline "A").map (fun r => (r.UserID, r.Value)) =
        [("U1", "50.00")] ∧
      (creditedSales sampleTimeline "B").map (fun r => (r.UserID, r.Value)) =
        [("U3", "10.00"), ("U3", "2.50"), ("U1", "4.25")] ∧
      ∃ s, attributionLoop parseDecimal sampleTimeline = .ok s ∧
        ∀ v, totalOf s v = ((creditedSales sampleTimeline v).map (amountOf parseDecimal)).sum ∧
          (creditedSales sampleTimeline v ≠ [] →
            ∃ d, s.summary.lookup v = some d ∧
              d.TotalSales =
                ((creditedSales sampleTimeline v).map (amountOf parseDecimal)).sum) :=
  ⟨wellKinded_sample, allAmountsParse_sample, by decide, by decide,
    total_sales_is_sum_of_credited_amounts parseDecimal sampleTimeline wellKinded_sample
      allAmountsParse_sample⟩

/-- C2. At the end of the loop the purchaser set held for each dimension `v` is the set
of users of the sales attributed to `v`; it has at most as many members as there are such
sales; and the row written for `v` carries the size of that set as `num_purchases`. -/
theorem purchasers_are_credited_users {α : Type} [Zero α] [Add α]
    (parseFloat : String → Option α) (formatFloat : α → String) (records : List Record)
    (hk : WellKinded records) (s : LoopState α)
    (hs : attributionLoop parseFloat records = .ok s) (v : String) :
    purchasersOf s v = ((creditedSales records v).map Record.UserID).toFinset ∧
      (purchasersOf s v).card ≤ (creditedSales records v).length ∧
      ∀ d order, s.summary.lookup v = some d → IsRangeOrder order s.summary →
        [v, v, itoa ((creditedSales records v).map Record.UserID).toFinset.card,
          formatFloat d.TotalSales] ∈ buildTable formatFloat order s.overall s.summary := by
  have ht := tracks_loop parseFloat records hk s hs
  refine ⟨ht.purchasers v, ?_, ?_⟩
  · rw [ht.purchasers v]
    exact (List.toFinset_card_le _).trans (by simp)
  · intro d order hd ho
    have hmem : v ∈ order := (ho.2 v).mpr (Finmap.mem_of_lookup_eq_some hd)
    have hpd : d.Purchasers = purchasersOf s v := by simp [purchasersOf, hd]
    unfold buildTable
    refine List.mem_cons_of_mem _ (List.mem_cons_of_mem _ ?_)
    rw [List.mem_filterMap]
    refine ⟨v, hmem, ?_⟩
    rw [hd, ← ht.purchasers v, ← hpd]
    rfl

/-- Witness of C2: on the sample timeline dimension `B` has three attributed sales and two
purchasers, and its row, in a table whose rows follow the order `B`, `A`, carries `2`. -/
theorem purchasers_are_credited_users_witness :
    WellKinded sampleTimeline ∧
      attributionLoop parseDecimal sampleTimeline = .ok sampleFinal ∧
      IsRangeOrder ["B", "A"] sampleFinal.summary ∧
      (creditedSales sampleTimeline "B").length = 3 ∧
      purchasersOf sampleFinal "B" = {"U3", "U1"} ∧
      ∃ d, sampleFinal.summary.lookup "B" = some d ∧
        ["B", "B", "2", formatTwoDecimals d.TotalSales] ∈
          buildTable formatTwoDecimals ["B", "A"] sampleFinal.overall sampleFinal.summary := by
  obtain ⟨d, hd⟩ := sample_lookup_B
  have h := purchasers_are_credited_users parseDecimal formatTwoDecimals sampleTimeline
    wellKinded_sample sampleFinal sampleFinal_spec "B"
  have hcard :
      itoa ((creditedSales sampleTimeline "B").map Record.UserID).toFinset.card = "2" := by
    decide
  have hrow := h.2.2 d ["B", "A"] hd isRangeOrder_sample
  rw [hcard] at hrow
  exact ⟨wellKinded_sample, sampleFinal_spec, isRangeOrder_sample, by decide, by decide,
    d, hd, hrow⟩

/-- C3. After every step of the attribution loop the purchaser set of `overall` is the
union of the purchaser sets of the dimension aggregates in `summary`, so the
`num_purchases` written for `overall` is the number of distinct users in that union. -/
theorem overall_purchasers_is_union {α : Type} [Zero α] [Add α]
    (parseFloat : String → Option α) (formatFloat : α → String) (records : List Record)
    (n : Nat) (s : LoopState α)
    (hs : attributionLoop parseFloat (records.take n) = .ok s) :
    s.overall.Purchasers = unionOfPurchasers s ∧
      overallRow formatFloat s.overall =
        ["overall", "overall", itoa (unionOfPurchasers s).card,
          formatFloat s.overall.TotalSales] := by
  have h : s.overall.Purchasers = unionOfPurchasers s :=
    loopFrom_invariant parseFloat (fun t => t.overall.Purchasers = unionOfPurchasers t)
      (fun t r t' ht hst => step_keeps_union parseFloat t t' r ht hst)
      (records.take n) initState s (by simp [initState, unionOfPurchasers]) hs
  refine ⟨h, ?_⟩
  rw [overallRow, h]

/-- Witness of C3: on the sample timeline `U1` is a purchaser of `A` and of `B`, and
`overall` holds `U1` and `U3`. -/
theorem overall_purchasers_is_union_witness :
    attributionLoop parseDecimal (sampleTimeline.take 9) = .ok sampleFinal ∧
      "U1" ∈ purchasersOf sampleFinal "A" ∧ "U1" ∈ purchasersOf sampleFinal "B" ∧
      sampleFinal.overall.Purchasers.card = 2 ∧
      (sampleFinal.overall.Purchasers = unionOfPurchasers sampleFinal ∧
        overallRow formatTwoDecimals sampleFinal.overall =
          ["overall", "overall", itoa (unionOfPurchasers sampleFinal).card,
            formatTwoDecimals sampleFinal.overall.TotalSales]) :=
  ⟨sampleFinal_spec, by decide, by decide, by decide,
    overall_purchasers_is_union parseDecimal formatTwoDecimals sampleTimeline 9 sampleFinal
      sampleFinal_spec⟩

/-- C4. When every sale amount parses, after every step of the attribution loop the total
of `overall` is, in exact arithmetic, the sum of the totals of the dimension aggregates
in `summary`, and it is the sum of the amounts of all sales attributed so far. -/
theorem overall_total_is_sum_of_dimension_totals {α : Type} [AddCommMonoid α]
    (parseFloat : String → Option α) (records : List Record) (n : Nat)
    (hk : WellKinded records) (hp : AllAmountsParse parseFloat records) :
    ∃ s, attributionLoop parseFloat (records.take n) = .ok s ∧
      s.overall.TotalSales = sumOfTotals s ∧
      s.overall.TotalSales =
        ((attributedSales (records.take n)).map (amountOf parseFloat)).sum := by
  have hk' := wellKinded_take records n hk
  obtain ⟨s, hs⟩ := loop_succeeds parseFloat (records.take n) hk'
    (allAmountsParse_take parseFloat records n hp)
  refine ⟨s, hs, ?_, ?_⟩
  · exact loopFrom_invariant parseFloat (fun t => t.overall.TotalSales = sumOfTotals t)
      (fun t r t' ht hst => step_keeps_sum parseFloat t t' r ht hst)
      (records.take n) initState s (by simp [initState, sumOfTotals]) hs
  · rw [(tracks_loop parseFloat (records.take n) hk' s hs).overallTotal, addUp_eq_sum]

/-- Witness of C4. -/
theorem overall_total_is_sum_of_dimension_totals_witness :
    WellKinded sampleTimeline ∧ AllAmountsParse parseDecimal sampleTimeline ∧
      ∃ s, attributionLoop parseDecimal (sampleTimeline.take 6) = .ok s ∧
        s.overall.TotalSales = sumOfTotals s ∧
        s.overall.TotalSales =
          ((attributedSales (sampleTimeline.take 6)).map (amountOf parseDecimal)).sum :=
  ⟨wellKinded_sample, allAmountsParse_sample,
    overall_total_is_sum_of_dimension_totals parseDecimal sampleTimeline 6 wellKinded_sample
      allAmountsParse_sample⟩

/-- C5. A sale with a parseable amount whose user has no recorded exposure, or the empty
string recorded, adds one to the unattributed counter and changes nothing else of the
state.  At the end of a pass in which every amount parses the counter is the number of
such sales, and the end state of a pass is the one reached without such a sale, with one
more counted. -/
theorem unattributed_sale_only_counts {α : Type} [Zero α] [Add α]
    (parseFloat : String → Option α) :
    (∀ (s : LoopState α) (r : Record) (a : α), r.Typ = "sale" →
        parseFloat r.Value = some a →
        (s.userLatestExposures.lookup r.UserID = none ∨
          s.userLatestExposures.lookup r.UserID = some "") →
        step parseFloat s r = .ok { s with noAdSalesCount := s.noAdSalesCount + 1 }) ∧
      (∀ records, WellKinded records → AllAmountsParse parseFloat records →
        ∃ s, attributionLoop parseFloat records = .ok s ∧
          s.noAdSalesCount = unattributedCount records) ∧
      (∀ pre r post (s : LoopState α), WellKinded (pre ++ r :: post) →
        unattributedAt (pre ++ r :: post) pre.length = true →
        attributionLoop parseFloat (pre ++ r :: post) = .ok s →
        ∃ s0, attributionLoop parseFloat (pre ++ post) = .ok s0 ∧
          s = { s0 with noAdSalesCount := s0.noAdSalesCount + 1 }) := by
  refine ⟨?_, ?_, ?_⟩
  · intro s r a hr hp hl
    exact step_unattributed parseFloat s r a (sale_ne_exposure r hr) hp
      ((lookupImpression_eq_empty _ _).mpr hl)
  · intro records hk hp
    obtain ⟨s, hs⟩ := loop_succeeds parseFloat records hk hp
    exact ⟨s, hs, (tracks_loop parseFloat records hk s hs).counter⟩
  · intro pre r post s hk hu hs
    have hkpre : WellKinded pre := ((wellKinded_append pre (r :: post)).mp hk).1
    unfold unattributedAt at hu
    rw [List.getElem?_append_right (Nat.le_refl _), List.take_left] at hu
    simp only [Nat.sub_self, List.getElem?_cons_zero, decide_eq_true_eq] at hu
    obtain ⟨hr, hl⟩ := hu
    unfold attributionLoop at hs ⊢
    rw [loopFrom_append] at hs ⊢
    cases hpre : loopFrom parseFloat initState pre with
    | error e => rw [hpre] at hs; exact Except.noConfusion hs
    | ok s1 =>
      rw [hpre] at hs
      simp only [loopFrom] at hs ⊢
      have ht := tracks_loop parseFloat pre hkpre s1 hpre
      rw [← ht.exposures] at hl
      cases hp : parseFloat r.Value with
      | none =>
        rw [step_parse_error parseFloat s1 r (sale_ne_exposure r hr) hp] at hs
        exact Except.noConfusion hs
      | some a =>
        rw [step_unattributed parseFloat s1 r a (sale_ne_exposure r hr) hp
          ((lookupImpression_eq_empty _ _).mpr hl)] at hs
        simp only at hs
        have hb := loopFrom_bumpCounter parseFloat post s1
        unfold bumpCounter at hb
        rw [hb] at hs
        cases hpost : loopFrom parseFloat s1 post with
        | error e => rw [hpost] at hs; exact Except.noConfusion hs
        | ok s0 =>
          rw [hpost] at hs
          exact ⟨s0, rfl, (Except.ok.inj hs).symm⟩

/-- Witness of C5: the sale of `U2`, who was never exposed, on the sample timeline. -/
theorem unattributed_sale_only_counts_witness :
    step parseDecimal (initState : LoopState ℚ)
        { UserID := "U2", Timestamp := 32400, Typ := "sale", Value := "30.00" } =
        .ok { (initState : LoopState ℚ) with noAdSalesCount := 0 + 1 } ∧
      (∃ s, attributionLoop parseDecimal sampleTimeline = .ok s ∧
        s.noAdSalesCount = unattributedCount sampleTimeline) ∧
      unattributedCount sampleTimeline = 1 ∧
      ∃ s0, attributionLoop parseDecimal ([] ++ sampleTimeline.tail) = .ok s0 ∧
        sampleFinal = { s0 with noAdSalesCount := s0.noAdSalesCount + 1 } :=
  ⟨(unattributed_sale_only_counts parseDecimal).1 initState
      { UserID := "U2", Timestamp := 32400, Typ := "sale", Value := "30.00" } 30 rfl
      parseDecimal_sample_30 (Or.inl (Finmap.lookup_empty _)),
    (unattributed_sale_only_counts parseDecimal).2.1 sampleTimeline wellKinded_sample
      allAmountsParse_sample,
    by decide,
    (unattributed_sale_only_counts parseDecimal).2.2 []
      { UserID := "U2", Timestamp := 32400, Typ := "sale", Value := "30.00" }
      sampleTimeline.tail sampleFinal wellKinded_sample (by decide) sampleFinal_spec⟩

/-- C6. A sale of a user with no exposure entry and the same sale when the user's entry is
the empty string are processed alike: with a parseable amount both leave `summary` and
`overall` as they are and add one to the counter, and with an unparseable amount both
fail.  In particular a sale that directly follows an exposure of its user with an empty
payload is unattributed, whatever exposure was recorded for the user before. -/
theorem no_exposure_same_as_empty_exposure {α : Type} [Zero α] [Add α]
    (parseFloat : String → Option α) (s : LoopState α) (r : Record)
    (hr : r.Typ = "sale") (hn : s.userLatestExposures.lookup r.UserID = none) :
    (∀ a, parseFloat r.Value = some a →
        step parseFloat s r = .ok { s with noAdSalesCount := s.noAdSalesCount + 1 } ∧
        step parseFloat
            { s with userLatestExposures := s.userLatestExposures.insert r.UserID "" } r =
          .ok { s with
            userLatestExposures := s.userLatestExposures.insert r.UserID ""
            noAdSalesCount := s.noAdSalesCount + 1 }) ∧
      (parseFloat r.Value = none →
        step parseFloat s r = .error (Failure.parseFloatError r.Value) ∧
        step parseFloat
            { s with userLatestExposures := s.userLatestExposures.insert r.UserID "" } r =
          .error (Failure.parseFloatError r.Value)) ∧
      (∀ (t : LoopState α) (e : Record) (a : α), e.Typ = "exposure" → e.Value = "" →
        e.UserID = r.UserID → parseFloat r.Value = some a →
        ∃ t1 t2, step parseFloat t e = .ok t1 ∧ step parseFloat t1 r = .ok t2 ∧
          t2.summary = t.summary ∧ t2.overall = t.overall ∧
          t2.noAdSalesCount = t.noAdSalesCount + 1) := by
  have hne := sale_ne_exposure r hr
  refine ⟨?_, ?_, ?_⟩
  · intro a hp
    refine ⟨?_, ?_⟩
    · exact step_unattributed parseFloat s r a hne hp
        ((lookupImpression_eq_empty _ _).mpr (Or.inl hn))
    · exact step_unattributed parseFloat _ r a hne hp
        ((lookupImpression_eq_empty _ _).mpr (Or.inr (Finmap.lookup_insert _)))
  · intro hp
    exact ⟨step_parse_error parseFloat s r hne hp, step_parse_error parseFloat _ r hne hp⟩
  · intro t e a he hev heu hp
    refine ⟨{ t with userLatestExposures := t.userLatestExposures.insert e.UserID e.Value },
      { t with
        userLatestExposures := t.userLatestExposures.insert e.UserID e.Value
        noAdSalesCount := t.noAdSalesCount + 1 },
      step_exposure parseFloat t e he, ?_, rfl, rfl, rfl⟩
    refine step_unattributed parseFloat _ r a hne hp ?_
    refine (lookupImpression_eq_empty _ _).mpr (Or.inr ?_)
    simp only [heu, hev]
    exact Finmap.lookup_insert _

/-- Witness of C6. -/
theorem no_exposure_same_as_empty_exposure_witness :
    saleU2.Typ = "sale" ∧
      (initState : LoopState ℚ).userLatestExposures.lookup saleU2.UserID = none ∧
      parseDecimal saleU2.Value = some 30 ∧
      (step parseDecimal (initState : LoopState ℚ) saleU2 =
          .ok { (initState : LoopState ℚ) with noAdSalesCount := 0 + 1 } ∧
        step parseDecimal
            { (initState : LoopState ℚ) with
              userLatestExposures := (∅ : GoMap String).insert "U2" "" } saleU2 =
          .ok { (initState : LoopState ℚ) with
            userLatestExposures := (∅ : GoMap String).insert "U2" ""
            noAdSalesCount := 0 + 1 }) ∧
      ∃ t1 t2, step parseDecimal stateU2A emptyExposureU2 = .ok t1 ∧
        step parseDecimal t1 saleU2 = .ok t2 ∧
        t2.summary = stateU2A.summary ∧ t2.overall = stateU2A.overall ∧
        t2.noAdSalesCount = stateU2A.noAdSalesCount + 1 :=
  ⟨rfl, Finmap.lookup_empty _, parseDecimal_sample_30,
    (no_exposure_same_as_empty_exposure parseDecimal initState saleU2 rfl
      (Finmap.lookup_empty _)).1 30 parseDecimal_sample_30,
    (no_exposure_same_as_empty_exposure parseDecimal initState saleU2 rfl
      (Finmap.lookup_empty _)).2.2 stateU2A emptyExposureU2 30 rfl rfl rfl
      parseDecimal_sample_30⟩

/-- C7. An exposure event sets the recorded latest exposure of its user to its payload,
whatever was recorded before, and changes nothing else: the entries of other users,
`overall`, `summary` and the counter stay as they are, and the outcome does not depend on
the amount parser, which is not consulted. -/
theorem exposure_only_records_payload {α : Type} [Zero α] [Add α]
    (parseFloat : String → Option α) (s : LoopState α) (r : Record)
    (hr : r.Typ = "exposure") :
    ∃ s', step parseFloat s r = .ok s' ∧
      s'.userLatestExposures.lookup r.UserID = some r.Value ∧
      (∀ u, u ≠ r.UserID →
        s'.userLatestExposures.lookup u = s.userLatestExposures.lookup u) ∧
      s'.overall = s.overall ∧ s'.summary = s.summary ∧
      s'.noAdSalesCount = s.noAdSalesCount ∧
      ∀ parseFloat' : String → Option α, step parseFloat' s r = .ok s' := by
  refine ⟨_, step_exposure parseFloat s r hr, Finmap.lookup_insert _, ?_, rfl, rfl, rfl, ?_⟩
  · intro u hu
    exact Finmap.lookup_insert_of_ne _ hu
  · intro parseFloat'
    exact step_exposure parseFloat' s r hr

/-- Witness of C7: `U2`, recorded with `A`, is exposed to `B`. -/
theorem exposure_only_records_payload_witness :
    exposureU2B.Typ = "exposure" ∧ stateU2A.userLatestExposures.lookup "U2" = some "A" ∧
      ∃ s', step parseDecimal stateU2A exposureU2B = .ok s' ∧
        s'.userLatestExposures.lookup exposureU2B.UserID = some exposureU2B.Value ∧
        (∀ u, u ≠ exposureU2B.UserID →
          s'.userLatestExposures.lookup u = stateU2A.userLatestExposures.lookup u) ∧
        s'.overall = stateU2A.overall ∧ s'.summary = stateU2A.summary ∧
        s'.noAdSalesCount = stateU2A.noAdSalesCount ∧
        ∀ parseFloat' : String → Option ℚ, step parseFloat' stateU2A exposureU2B = .ok s' :=
  ⟨rfl, by decide, exposure_only_records_payload parseDecimal stateU2A exposureU2B rfl⟩

/-- C8, counterexample.  On the tie sample `sort.Slice` moves the first of thirteen events,
the exposure of `U1`, behind the sale of `U1` that has the same timestamp and came later
in the concatenation: the timeline is a permutation ordered by timestamp but not the
stable sort, the sale is processed before the exposure, it is counted as unattributed and
no aggregate `A` exists, whereas in the stable order the sale is credited to `A`. -/
theorem go_sort_moves_sale_before_its_exposure :
    mergeTimeline goSortSlice tieExposures tieSales ≠
        stableSort timelineLess (tieExposures ++ tieSales) ∧
      (mergeTimeline goSortSlice tieExposures tieSales).Perm (tieExposures ++ tieSales) ∧
      (mergeTimeline goSortSlice tieExposures tieSales).Pairwise
        (fun a b => a.Timestamp ≤ b.Timestamp) ∧
      (mergeTimeline goSortSlice tieExposures tieSales)[1]? =
        some { UserID := "U1", Timestamp := 100, Typ := "sale", Value := "50.00" } ∧
      (mergeTimeline goSortSlice tieExposures tieSales)[6]? =
        some { UserID := "U1", Timestamp := 100, Typ := "exposure", Value := "A" } ∧
      (stableSort timelineLess (tieExposures ++ tieSales))[1]? =
        some { UserID := "U1", Timestamp := 100, Typ := "exposure", Value := "A" } ∧
      (stableSort timelineLess (tieExposures ++ tieSales))[7]? =
        some { UserID := "U1", Timestamp := 100, Typ := "sale", Value := "50.00" } ∧
      (∃ s, attributionLoop parseDecimal (mergeTimeline goSortSlice tieExposures tieSales) =
          .ok s ∧ s.summary.lookup "A" = none ∧ s.noAdSalesCount = 12) ∧
      ∃ s, attributionLoop parseDecimal (stableSort timelineLess (tieExposures ++ tieSales)) =
          .ok s ∧ purchasersOf s "A" = {"U1"} ∧ s.noAdSalesCount = 11 := by
  refine ⟨by decide, by decide, by decide, by decide, by decide, by decide, by decide,
    ⟨_, rfl, by decide, by decide⟩, ⟨_, rfl, by decide, by decide⟩⟩

/-- C8, amended.  When no two events of the two logs share a timestamp, the timeline `run`
builds is the stable sort by timestamp of the exposures followed by the sales, whatever
`sort.Slice` does within its contract. -/
theorem timeline_is_stable_sort_without_ties
    (sortSlice : (Record → Record → Bool) → List Record → List Record)
    (hc : SortContract sortSlice) (impressions sales : List Record)
    (hties : (impressions ++ sales).Pairwise (fun a b => a.Timestamp ≠ b.Timestamp)) :
    mergeTimeline sortSlice impressions sales =
      stableSort timelineLess (impressions ++ sales) := by
  obtain ⟨hp1, hs1⟩ := hc timelineLess (impressions ++ sales) lessOk_timelineLess
  obtain ⟨hp2, hs2⟩ :=
    sortContract_stableSort timelineLess (impressions ++ sales) lessOk_timelineLess
  exact sorted_perm_unique (impressions ++ sales) _ _ hties hp1 hp2 hs1 hs2

/-- Witness of C8, amended: a sort within the contract that is not stable, on the events
of the sample timeline, whose timestamps differ. -/
theorem timeline_is_stable_sort_without_ties_witness :
    SortContract reverseThenSort ∧
      (sampleImpressions ++ sampleSales).Pairwise (fun a b => a.Timestamp ≠ b.Timestamp) ∧
      stableSort timelineLess (sampleImpressions ++ sampleSales) = sampleTimeline ∧
      mergeTimeline reverseThenSort sampleImpressions sampleSales =
        stableSort timelineLess (sampleImpressions ++ sampleSales) :=
  ⟨sortContract_reverseThenSort, by decide, by decide,
    timeline_is_stable_sort_without_ties reverseThenSort sortContract_reverseThenSort
      sampleImpressions sampleSales (by decide)⟩

/-- C9. Whatever rearrangement `sort.Slice` makes within its contract, the timeline `run`
walks is a permutation of the exposures followed by the sales, and its timestamps never
decrease: an event at a later position is not before an event at an earlier position. -/
theorem timeline_is_sorted_permutation
    (sortSlice : (Record → Record → Bool) → List Record → List Record)
    (hc : SortContract sortSlice) (impressions sales : List Record) :
    (mergeTimeline sortSlice impressions sales).Perm (impressions ++ sales) ∧
      ∀ (i j : Nat) (a b : Record), i < j →
        (mergeTimeline sortSlice impressions sales)[i]? = some a →
        (mergeTimeline sortSlice impressions sales)[j]? = some b →
        a.Timestamp ≤ b.Timestamp := by
  obtain ⟨hperm, hsorted⟩ := hc timelineLess (impressions ++ sales) lessOk_timelineLess
  refine ⟨hperm, ?_⟩
  intro i j a b hij hi hj
  unfold mergeTimeline at hi hj
  obtain ⟨hi', rfl⟩ := List.getElem?_eq_some.mp hi
  obtain ⟨hj', rfl⟩ := List.getElem?_eq_some.mp hj
  have := (List.pairwise_iff_getElem.mp hsorted) i j hi' hj' hij
  simpa [timelineLess] using this

/-- Witness of C9: the stable sort is within the contract; the thirteen events of the tie
sample. -/
theorem timeline_is_sorted_permutation_witness :
    SortContract stableSort ∧
      (mergeTimeline stableSort tieExposures tieSales).Perm (tieExposures ++ tieSales) ∧
      ∀ (i j : Nat) (a b : Record), i < j →
        (mergeTimeline stableSort tieExposures tieSales)[i]? = some a →
        (mergeTimeline stableSort tieExposures tieSales)[j]? = some b →
        a.Timestamp ≤ b.Timestamp :=
  ⟨sortContract_stableSort,
    timeline_is_sorted_permutation stableSort sortContract_stableSort tieExposures tieSales⟩

/-- C10. On a well-kinded timeline the attribution pass fails exactly when some sale
amount does not parse; a sale with an unparseable amount fails in every state, also when
its user has no exposure; and when the pass fails, `run` stops with that failure, having
built no row and created no output. -/
theorem pass_fails_iff_bad_amount {α : Type} [Zero α] [Add α] (lib : Lib α)
    (records : List Record) (hk : WellKinded records) :
    ((∃ e, attributionLoop lib.parseFloat records = .error e) ↔
        ∃ r ∈ records, r.Typ = "sale" ∧ lib.parseFloat r.Value = none) ∧
      (∀ (s : LoopState α) (r : Record), r.Typ = "sale" → lib.parseFloat r.Value = none →
        step lib.parseFloat s r = .error (Failure.parseFloatError r.Value)) ∧
      (∀ e, attributionLoop lib.parseFloat records = .error e →
        (runTimeline lib records).failure = some e ∧ (runTimeline lib records).out = [] ∧
        (runTimeline lib records).created = false ∧
        (runTimeline lib records).written = []) ∧
      (∀ impressions sales e,
        ParseFileIntoRecords lib.readAll lib.parseTime "ad_exposures.csv" "exposure" =
          .ok impressions →
        ParseFileIntoRecords lib.readAll lib.parseTime "sales_data.csv" "sale" = .ok sales →
        records = mergeTimeline lib.sortSlice impressions sales →
        attributionLoop lib.parseFloat records = .error e →
        run lib = { failure := some e, out := [], created := false, written := [] }) := by
  refine ⟨loop_error_iff lib.parseFloat records hk, ?_, ?_, ?_⟩
  · intro s r hr hp
    exact step_parse_error lib.parseFloat s r (sale_ne_exposure r hr) hp
  · intro e he
    simp [runTimeline, he, Outcome.early]
  · intro impressions sales e h1 h2 hrec he
    rw [run_eq_runTimeline lib impressions sales h1 h2, ← hrec]
    simp [runTimeline, he, Outcome.early]

/-- Witness of C10: in `badFiles` the sale of `U1` is attributed, then the sale of `U2`,
who has no exposure, has the amount `abc`: the run fails with nothing built. -/
theorem pass_fails_iff_bad_amount_witness :
    WellKinded badTimeline ∧
      attributionLoop badLib.parseFloat badTimeline =
        .error (Failure.parseFloatError "abc") ∧
      ((∃ e, attributionLoop badLib.parseFloat badTimeline = .error e) ↔
        ∃ r ∈ badTimeline, r.Typ = "sale" ∧ badLib.parseFloat r.Value = none) ∧
      (runTimeline badLib badTimeline).out = [] ∧
      (runTimeline badLib badTimeline).created = false ∧
      run badLib =
        { failure := some (Failure.parseFloatError "abc"), out := [], created := false,
          written := [] } :=
  ⟨wellKinded_bad, rfl, (pass_fails_iff_bad_amount badLib badTimeline wellKinded_bad).1,
    ((pass_fails_iff_bad_amount badLib badTimeline wellKinded_bad).2.2.1
      (Failure.parseFloatError "abc") rfl).2.1,
    ((pass_fails_iff_bad_amount badLib badTimeline wellKinded_bad).2.2.1
      (Failure.parseFloatError "abc") rfl).2.2.1,
    (pass_fails_iff_bad_amount badLib badTimeline wellKinded_bad).2.2.2 badImpressions
      badSales (Failure.parseFloatError "abc") rfl rfl rfl rfl⟩

/-- C13. When every data row has three fields, `ParseFileIntoRecords` succeeds exactly when
the second field of every row is a timestamp; on success it returns one record per row, in
the order of the rows, made of the first field, the parsed second field, the declared kind
and the third field; on failure it returns a timestamp error and no record. -/
theorem parseFile_three_field_rows (readAll : String → Option (List (List String)))
    (parseTime : String → Option Int) (filename recordType : String) (header : List String)
    (rows : List (List String)) (hread : readAll filename = some (header :: rows))
    (h3 : ∀ l ∈ rows, l.length = 3) :
    ((∃ rs, ParseFileIntoRecords readAll parseTime filename recordType = .ok rs) ↔
        ∀ l ∈ rows, ∃ t ts, l[1]? = some t ∧ parseTime t = some ts) ∧
      (∀ rs, ParseFileIntoRecords readAll parseTime filename recordType = .ok rs →
        rs.length = rows.length ∧
        ∀ (i : Nat) (u t v : String), rows[i]? = some [u, t, v] →
          ∃ ts, parseTime t = some ts ∧
            rs[i]? = some { UserID := u, Timestamp := ts, Typ := recordType, Value := v }) ∧
      ((∃ l ∈ rows, ∃ t, l[1]? = some t ∧ parseTime t = none) →
        ∃ t, ParseFileIntoRecords readAll parseTime filename recordType =
          .error (Failure.timeParseError t)) := by
  have h3' : ∀ l ∈ rows, 3 ≤ l.length := fun l hl => Nat.le_of_eq (h3 l hl).symm
  have hshape : ∀ l ∈ rows, ∃ u t v, l = [u, t, v] := by
    intro l hl
    obtain ⟨u, t, v, rest, rfl⟩ := exists_three_of_length (h3' l hl)
    have hlen := h3 _ hl
    simp only [List.length_cons] at hlen
    have : rest = [] := List.length_eq_zero.mp (by omega)
    exact ⟨u, t, v, by rw [this]⟩
  rw [parseFileIntoRecords_of_read readAll parseTime filename recordType header rows hread]
  have hiff : ∀ rs, parseLines parseTime recordType rows [] = .ok rs ↔
      rows.map (rowRecord parseTime recordType) = rs.map some := by
    intro rs
    rw [parseLines_ok_iff parseTime recordType rows h3' [] rs]
    constructor
    · rintro ⟨recs, hrecs, hrs⟩
      rw [hrs, List.nil_append]
      exact hrecs
    · intro h
      exact ⟨rs, h, rfl⟩
  refine ⟨?_, ?_, ?_⟩
  · constructor
    · rintro ⟨rs, hrs⟩ l hl
      have hrecs := (hiff rs).mp hrs
      obtain ⟨r, hr⟩ := (map_rowRecord_eq_some_iff parseTime recordType rows).mp ⟨rs, hrecs⟩ l hl
      obtain ⟨u, t, v, rfl⟩ := hshape l hl
      cases hpt : parseTime t with
      | none => rw [rowRecord_three_none parseTime recordType u t v [] hpt] at hr; simp at hr
      | some ts => exact ⟨t, ts, rfl, hpt⟩
    · intro h
      have hall : ∀ l ∈ rows, ∃ r, rowRecord parseTime recordType l = some r := by
        intro l hl
        obtain ⟨u, t, v, rfl⟩ := hshape l hl
        obtain ⟨t', ts, ht', hts⟩ := h _ hl
        simp only [List.getElem?_cons_succ, List.getElem?_cons_zero, Option.some.injEq] at ht'
        subst ht'
        exact ⟨_, rowRecord_three_some parseTime recordType u t v [] ts hts⟩
      obtain ⟨recs, hrecs⟩ := (map_rowRecord_eq_some_iff parseTime recordType rows).mpr hall
      exact ⟨recs, (hiff _).mpr hrecs⟩
  · intro rs hrs
    have hrecs := (hiff rs).mp hrs
    refine ⟨?_, ?_⟩
    · have := congrArg List.length hrecs
      simpa using this.symm
    · intro i u t v hi
      obtain ⟨y, hy, hf⟩ := getElem?_of_map_eq_map_some _ rows rs hrecs i _ hi
      cases hpt : parseTime t with
      | none => rw [rowRecord_three_none parseTime recordType u t v [] hpt] at hf; simp at hf
      | some ts =>
        rw [rowRecord_three_some parseTime recordType u t v [] ts hpt] at hf
        refine ⟨ts, rfl, ?_⟩
        rw [hy, ← Option.some.inj hf]
  · rintro ⟨l, hl, t, ht, hnone⟩
    cases hres : parseLines parseTime recordType rows [] with
    | error e =>
      obtain ⟨t', rfl⟩ := parseLines_error parseTime recordType rows h3' [] e hres
      exact ⟨t', rfl⟩
    | ok rs =>
      exfalso
      have hrecs := (hiff rs).mp hres
      obtain ⟨r, hr⟩ := (map_rowRecord_eq_some_iff parseTime recordType rows).mp ⟨rs, hrecs⟩ l hl
      obtain ⟨u, t', v, rfl⟩ := hshape l hl
      simp only [List.getElem?_cons_succ, List.getElem?_cons_zero, Option.some.injEq] at ht
      subst ht
      rw [rowRecord_three_none parseTime recordType u t' v [] hnone] at hr
      simp at hr

/-- Witness of C13: the sale file of the samples. -/
theorem parseFile_three_field_rows_witness :
    sampleFiles "sales_data.csv" =
        some (["user_id", "timestamp", "amount"] ::
          [ ["U1", "2024-01-01 11:00:00", "50.00"],
            ["U2", "2024-01-01 09:00:00", "30.00"],
            ["U3", "2024-01-01 13:00:00", "10.00"] ]) ∧
      ParseFileIntoRecords sampleFiles parseTimestamp "sales_data.csv" "sale" =
        .ok [ { UserID := "U1", Timestamp := 1704106800, Typ := "sale", Value := "50.00" },
          { UserID := "U2", Timestamp := 1704099600, Typ := "sale", Value := "30.00" },
          { UserID := "U3", Timestamp := 1704114000, Typ := "sale", Value := "10.00" } ] ∧
      ((∃ rs, ParseFileIntoRecords sampleFiles parseTimestamp "sales_data.csv" "sale" =
          .ok rs) ↔
        ∀ l ∈ [ ["U1", "2024-01-01 11:00:00", "50.00"],
            ["U2", "2024-01-01 09:00:00", "30.00"],
            ["U3", "2024-01-01 13:00:00", "10.00"] ],
          ∃ t ts, l[1]? = some t ∧ parseTimestamp t = some ts) :=
  ⟨rfl, rfl,
    (parseFile_three_field_rows sampleFiles parseTimestamp "sales_data.csv" "sale"
      ["user_id", "timestamp", "amount"]
      [ ["U1", "2024-01-01 11:00:00", "50.00"],
        ["U2", "2024-01-01 09:00:00", "30.00"],
        ["U3", "2024-01-01 13:00:00", "10.00"] ] rfl (by decide)).1⟩

/-- C12, counterexample.  A data row with four fields is no error: the record is built
from its first three fields.  (A data row with two fields whose second field is a
timestamp makes the access to the third field panic.) -/
theorem wide_row_is_accepted :
    ParseFileIntoRecords wideFiles parseTimestamp "sales_data.csv" "sale" =
        .ok [ { UserID := "U1", Timestamp := 1704106800, Typ := "sale", Value := "50.00" } ] ∧
      ParseFileIntoRecords shortFiles parseTimestamp "sales_data.csv" "sale" =
        .error Failure.panic :=
  ⟨rfl, rfl⟩

/-- C12, amended.  When the reader fails, `ParseFileIntoRecords` returns that error and no
record.  When every data row has at least three fields, it returns a timestamp error and
no record if the second field of some row is not a timestamp, and otherwise one record per
row made of the first three fields: fields after the third are ignored and are no error. -/
theorem parseFile_rows_of_three_or_more_fields
    (readAll : String → Option (List (List String))) (parseTime : String → Option Int)
    (filename recordType : String) :
    (readAll filename = none →
        ParseFileIntoRecords readAll parseTime filename recordType =
          .error (Failure.readError filename)) ∧
      ∀ header rows, readAll filename = some (header :: rows) →
        (∀ l ∈ rows, 3 ≤ l.length) →
        ((∃ l ∈ rows, rowRecord parseTime recordType l = none) →
          ∃ t, ParseFileIntoRecords readAll parseTime filename recordType =
            .error (Failure.timeParseError t)) ∧
        ((∀ l ∈ rows, ∃ r, rowRecord parseTime recordType l = some r) →
          ∃ rs, ParseFileIntoRecords readAll parseTime filename recordType = .ok rs ∧
            rows.map (rowRecord parseTime recordType) = rs.map some) := by
  refine ⟨fun h => by simp [ParseFileIntoRecords, ParseCSV, h], ?_⟩
  intro header rows hread h3
  rw [parseFileIntoRecords_of_read readAll parseTime filename recordType header rows hread]
  refine ⟨?_, ?_⟩
  · rintro ⟨l, hl, hnone⟩
    cases hres : parseLines parseTime recordType rows [] with
    | error e =>
      obtain ⟨t, rfl⟩ := parseLines_error parseTime recordType rows h3 [] e hres
      exact ⟨t, rfl⟩
    | ok rs =>
      exfalso
      obtain ⟨recs, hrecs, _⟩ := (parseLines_ok_iff parseTime recordType rows h3 [] rs).mp hres
      obtain ⟨r, hr⟩ :=
        (map_rowRecord_eq_some_iff parseTime recordType rows).mp ⟨recs, hrecs⟩ l hl
      rw [hnone] at hr
      exact Option.noConfusion hr
  · intro hall
    obtain ⟨recs, hrecs⟩ := (map_rowRecord_eq_some_iff parseTime recordType rows).mpr hall
    exact ⟨recs, (parseLines_ok_iff parseTime recordType rows h3 [] recs).mpr
      ⟨recs, hrecs, by simp⟩, hrecs⟩

/-- Witness of C12, amended: the file whose rows have four fields, and a file that cannot
be read. -/
theorem parseFile_rows_of_three_or_more_fields_witness :
    wideFiles "missing.csv" = none ∧
      ParseFileIntoRecords wideFiles parseTimestamp "missing.csv" "sale" =
        .error (Failure.readError "missing.csv") ∧
      wideFiles "sales_data.csv" =
        some (["user_id", "timestamp", "amount", "note"] ::
          [ ["U1", "2024-01-01 11:00:00", "50.00", "gift"] ]) ∧
      (∀ l ∈ [ ["U1", "2024-01-01 11:00:00", "50.00", "gift"] ], 3 ≤ l.length) ∧
      ∃ rs, ParseFileIntoRecords wideFiles parseTimestamp "sales_data.csv" "sale" = .ok rs ∧
        [ ["U1", "2024-01-01 11:00:00", "50.00", "gift"] ].map
            (rowRecord parseTimestamp "sale") = rs.map some :=
  ⟨rfl,
    (parseFile_rows_of_three_or_more_fields wideFiles parseTimestamp "missing.csv" "sale").1
      rfl,
    rfl, by decide,
    ((parseFile_rows_of_three_or_more_fields wideFiles parseTimestamp "sales_data.csv"
      "sale").2 ["user_id", "timestamp", "amount", "note"]
      [ ["U1", "2024-01-01 11:00:00", "50.00", "gift"] ] rfl (by decide)).2
      (by intro l hl; rw [List.mem_singleton.mp hl]; exact ⟨_, rfl⟩)⟩

/-- C19, evaluated.  A source without any line makes `lines[1:]` panic: `ParseCSV` neither
returns an empty result nor an error value, and `run` stops in the panic.  On a source
with lines the header is dropped and the other lines are returned in order. -/
theorem parseCSV_panics_on_empty_source :
    ParseCSV emptyFiles "ad_exposures.csv" = .error Failure.panic ∧
      ParseFileIntoRecords emptyFiles parseTimestamp "ad_exposures.csv" "exposure" =
        .error Failure.panic ∧
      run emptyLib = Outcome.early Failure.panic ∧
      ParseCSV sampleFiles "sales_data.csv" =
        .ok [ ["U1", "2024-01-01 11:00:00", "50.00"],
          ["U2", "2024-01-01 09:00:00", "30.00"],
          ["U3", "2024-01-01 13:00:00", "10.00"] ] :=
  ⟨rfl, rfl, rfl, rfl⟩

/-- C14. Given the overall aggregate and a dimension mapping with `n` keys, visited once
each, the table has `n + 2` rows of four fields: the header, the row of `overall` with the
size of its purchaser set and its total, and for the `i`-th key visited the row with the
key in the first two fields, the size of its purchaser set and its total. -/
theorem table_has_header_overall_and_one_row_per_key {α : Type} (formatFloat : α → String)
    (order : List String) (overall : Dimension α) (summary : GoMap (Dimension α))
    (ho : IsRangeOrder order summary) :
    (buildTable formatFloat order overall summary).length = summary.keys.card + 2 ∧
      (∀ row ∈ buildTable formatFloat order overall summary, row.length = 4) ∧
      (buildTable formatFloat order overall summary)[0]? =
        some ["dimension", "value", "num_purchases", "total_sales"] ∧
      (buildTable formatFloat order overall summary)[1]? =
        some ["overall", "overall", itoa overall.Purchasers.card,
          formatFloat overall.TotalSales] ∧
      order.Nodup ∧ (∀ k, k ∈ order ↔ k ∈ summary) ∧
      ∀ (i : Nat) (k : String), order[i]? = some k →
        ∃ d, summary.lookup k = some d ∧
          (buildTable formatFloat order overall summary)[i + 2]? =
            some [k, k, itoa d.Purchasers.card, formatFloat d.TotalSales] := by
  rw [buildTable_eq formatFloat order overall summary ho]
  refine ⟨?_, ?_, rfl, by simp [overallRow], ho.1, ho.2, ?_⟩
  · simp [rangeOrder_length order summary ho]
  · intro row hrow
    simp only [List.mem_cons, List.mem_map] at hrow
    rcases hrow with rfl | rfl | ⟨k, hk, rfl⟩
    · rfl
    · rfl
    · obtain ⟨d, hd⟩ := Finmap.mem_iff.mp ((ho.2 k).mp hk)
      simp [rowOfKey, hd, dimensionRow]
  · intro i k hi
    obtain ⟨d, hd⟩ := Finmap.mem_iff.mp ((ho.2 k).mp (List.getElem?_mem hi))
    refine ⟨d, hd, ?_⟩
    simp [List.getElem?_cons_succ, List.getElem?_map, hi, rowOfKey, hd, dimensionRow]

/-- Witness of C14: the aggregates reached on the sample timeline, `B` visited before `A`. -/
theorem table_has_header_overall_and_one_row_per_key_witness :
    IsRangeOrder ["B", "A"] sampleFinal.summary ∧
      buildTable formatTwoDecimals ["B", "A"] sampleFinal.overall sampleFinal.summary =
        [ ["dimension", "value", "num_purchases", "total_sales"],
          ["overall", "overall", "2", "66.75"],
          ["B", "B", "2", "16.75"],
          ["A", "A", "1", "50.00"] ] ∧
      (buildTable formatTwoDecimals ["B", "A"] sampleFinal.overall sampleFinal.summary).length =
        sampleFinal.summary.keys.card + 2 ∧
      ∀ row ∈ buildTable formatTwoDecimals ["B", "A"] sampleFinal.overall sampleFinal.summary,
        row.length = 4 :=
  ⟨isRangeOrder_sample, by decide!,
    (table_has_header_overall_and_one_row_per_key formatTwoDecimals ["B", "A"]
      sampleFinal.overall sampleFinal.summary isRangeOrder_sample).1,
    (table_has_header_overall_and_one_row_per_key formatTwoDecimals ["B", "A"]
      sampleFinal.overall sampleFinal.summary isRangeOrder_sample).2.1⟩

/-- C15, counterexample.  Two runs over the sample files that differ only in the order in
which `range` visits the two keys of `summary`, both orders visiting every key once, write
the rows of `A` and `B` in different orders. -/
theorem runs_differ_in_row_order :
    (∀ m, IsRangeOrder (sampleLib.rangeOrder m) m) ∧
      (∀ m, IsRangeOrder (descLib.rangeOrder m) m) ∧
      (run sampleLib).out =
        [ ["dimension", "value", "num_purchases", "total_sales"],
          ["overall", "overall", "2", "60.00"],
          ["A", "A", "1", "50.00"],
          ["B", "B", "1", "10.00"] ] ∧
      (run descLib).out =
        [ ["dimension", "value", "num_purchases", "total_sales"],
          ["overall", "overall", "2", "60.00"],
          ["B", "B", "1", "10.00"],
          ["A", "A", "1", "50.00"] ] ∧
      (run sampleLib).out ≠ (run descLib).out :=
  ⟨fun m => isRangeOrder_sort m, fun m => isRangeOrder_sort_reverse m, by decide!,
    by decide!, by decide!⟩

/-- C15, amended.  Two runs over the same inputs that differ only in the order in which
`range` visits the keys of `summary` end alike and write the same header, the same row
of `overall` and the same dimension rows, up to the order of the dimension rows. -/
theorem runs_agree_up_to_row_order {α : Type} [Zero α] [Add α] (lib : Lib α)
    (order2 : GoMap (Dimension α) → List String)
    (h1 : ∀ m, IsRangeOrder (lib.rangeOrder m) m) (h2 : ∀ m, IsRangeOrder (order2 m) m) :
    (run { lib with rangeOrder := order2 }).failure = (run lib).failure ∧
      (run { lib with rangeOrder := order2 }).created = (run lib).created ∧
      (run { lib with rangeOrder := order2 }).out.take 2 = (run lib).out.take 2 ∧
      ((run { lib with rangeOrder := order2 }).out.drop 2).Perm ((run lib).out.drop 2) := by
  unfold run
  simp only
  cases ParseFileIntoRecords lib.readAll lib.parseTime "ad_exposures.csv" "exposure" with
  | error e => simp
  | ok impressions =>
    cases ParseFileIntoRecords lib.readAll lib.parseTime "sales_data.csv" "sale" with
    | error e => simp
    | ok sales =>
      simp only
      unfold runTimeline
      simp only
      cases attributionLoop lib.parseFloat (mergeTimeline lib.sortSlice impressions sales) with
      | error e => simp
      | ok s =>
        have hperm : ((buildTable lib.formatFloat (order2 s.summary) s.overall
            s.summary).drop 2).Perm
              ((buildTable lib.formatFloat (lib.rangeOrder s.summary) s.overall
                s.summary).drop 2) := by
          unfold buildTable
          simp only [List.drop_succ_cons, List.drop_zero]
          exact (rangeOrder_perm _ _ s.summary (h2 s.summary) (h1 s.summary)).filterMap _
        have htake : (buildTable lib.formatFloat (order2 s.summary) s.overall
            s.summary).take 2 =
              (buildTable lib.formatFloat (lib.rangeOrder s.summary) s.overall
                s.summary).take 2 := by
          simp [buildTable]
        cases lib.createOk <;> cases lib.writeOk <;> simp [hperm, htake]

/-- Witness of C15, amended: the two runs of the counterexample. -/
theorem runs_agree_up_to_row_order_witness :
    (∀ m, IsRangeOrder (sampleLib.rangeOrder m) m) ∧
      (∀ m, IsRangeOrder ((fun m : GoMap (Dimension ℚ) =>
        (m.keys.sort (fun a b => a ≤ b)).reverse) m) m) ∧
      ((run { sampleLib with
          rangeOrder := fun m => (m.keys.sort (fun a b => a ≤ b)).reverse }).out.drop 2).Perm
        ((run sampleLib).out.drop 2) :=
  ⟨fun m => isRangeOrder_sort m, fun m => isRangeOrder_sort_reverse m,
    (runs_agree_up_to_row_order sampleLib
      (fun m => (m.keys.sort (fun a b => a ≤ b)).reverse)
      (fun m => isRangeOrder_sort m) (fun m => isRangeOrder_sort_reverse m)).2.2.2⟩

/-- C20, counterexample.  An exposure with the payload `overall` that receives a sale gets
an aggregate of its own: the table has two rows whose dimension field is `overall`. -/
theorem payload_overall_gives_second_overall_row :
    (run overallLib).failure = none ∧
      (run overallLib).out =
        [ ["dimension", "value", "num_purchases", "total_sales"],
          ["overall", "overall", "1", "5.00"],
          ["overall", "overall", "1", "5.00"] ] ∧
      (dimensionFields (run overallLib).out).count "overall" = 2 ∧
      ¬ (dimensionFields (run overallLib).out).Nodup :=
  ⟨by decide!, by decide!, by decide!, by decide!⟩

/-- C20, amended.  The dimension fields of the data rows are `overall` followed by the
keys of `summary`, each key once.  When no sale of the timeline is attributed to the value
`overall`, exactly one row carries that name and the dimension fields of all data rows are
pairwise distinct; when some sale is, the key `overall` gives a second row of that name. -/
theorem one_overall_row_unless_payload_overall {α : Type} [Zero α] [Add α]
    (parseFloat : String → Option α) (formatFloat : α → String) (records : List Record)
    (s : LoopState α) (order : List String) (hk : WellKinded records)
    (hs : attributionLoop parseFloat records = .ok s) (ho : IsRangeOrder order s.summary) :
    dimensionFields (buildTable formatFloat order s.overall s.summary) = "overall" :: order ∧
      order.Nodup ∧
      (creditedSales records "overall" = [] →
        (dimensionFields (buildTable formatFloat order s.overall s.summary)).count "overall" = 1 ∧
        (dimensionFields (buildTable formatFloat order s.overall s.summary)).Nodup) ∧
      (creditedSales records "overall" ≠ [] →
        (dimensionFields (buildTable formatFloat order s.overall s.summary)).count
          "overall" = 2) := by
  have ht := tracks_loop parseFloat records hk s hs
  rw [dimensionFields_buildTable formatFloat order s.overall s.summary ho]
  refine ⟨rfl, ho.1, ?_, ?_⟩
  · intro hnone
    have hnot : "overall" ∉ order := by
      intro hmem
      exact (ht.keys "overall").mp ((ho.2 _).mp hmem) hnone
    refine ⟨?_, List.nodup_cons.mpr ⟨hnot, ho.1⟩⟩
    rw [List.count_cons_self, List.count_eq_zero_of_not_mem hnot]
  · intro hsome
    have hmem : "overall" ∈ order := (ho.2 _).mpr ((ht.keys "overall").mpr hsome)
    rw [List.count_cons_self, List.count_eq_one_of_mem ho.1 hmem]

/-- Witness of C20, amended: the sample timeline, in which no exposure has the payload
`overall`. -/
theorem one_overall_row_unless_payload_overall_witness :
    WellKinded sampleTimeline ∧
      attributionLoop parseDecimal sampleTimeline = .ok sampleFinal ∧
      IsRangeOrder ["B", "A"] sampleFinal.summary ∧
      creditedSales sampleTimeline "overall" = [] ∧
      dimensionFields
          (buildTable formatTwoDecimals ["B", "A"] sampleFinal.overall sampleFinal.summary) =
        ["overall", "B", "A"] ∧
      (dimensionFields (buildTable formatTwoDecimals ["B", "A"] sampleFinal.overall
        sampleFinal.summary)).count "overall" = 1 ∧
      (dimensionFields (buildTable formatTwoDecimals ["B", "A"] sampleFinal.overall
        sampleFinal.summary)).Nodup :=
  ⟨wellKinded_sample, sampleFinal_spec, isRangeOrder_sample, by decide,
    (one_overall_row_unless_payload_overall parseDecimal formatTwoDecimals sampleTimeline
      sampleFinal ["B", "A"] wellKinded_sample sampleFinal_spec isRangeOrder_sample).1,
    ((one_overall_row_unless_payload_overall parseDecimal formatTwoDecimals sampleTimeline
      sampleFinal ["B", "A"] wellKinded_sample sampleFinal_spec isRangeOrder_sample).2.2.1
      (by decide)).1,
    ((one_overall_row_unless_payload_overall parseDecimal formatTwoDecimals sampleTimeline
      sampleFinal ["B", "A"] wellKinded_sample sampleFinal_spec isRangeOrder_sample).2.2.1
      (by decide)).2⟩

/-- C17. After every step of the attribution loop `summary` has an aggregate for `v`
exactly when some sale processed so far was attributed to `v`; no key is the empty
string; every aggregate has a purchaser; a key present after some step is present after
every later step; and a value without attributed sale has no aggregate and no report
row. -/
theorem summary_keys_are_the_credited_values {α : Type} [Zero α] [Add α]
    (parseFloat : String → Option α) (formatFloat : α → String) (records : List Record)
    (n : Nat) (s : LoopState α) (order : List String) (hk : WellKinded records)
    (hs : attributionLoop parseFloat (records.take n) = .ok s)
    (ho : IsRangeOrder order s.summary) :
    (∀ v, v ∈ s.summary ↔ creditedSales (records.take n) v ≠ []) ∧
      "" ∉ s.summary ∧
      (∀ v d, s.summary.lookup v = some d → d.Purchasers.Nonempty) ∧
      (∀ (m : Nat) (s0 : LoopState α), m ≤ n →
        attributionLoop parseFloat (records.take m) = .ok s0 →
        ∀ v, v ∈ s0.summary → v ∈ s.summary) ∧
      ∀ v, creditedSales (records.take n) v = [] →
        s.summary.lookup v = none ∧
        ∀ row ∈ (buildTable formatFloat order s.overall s.summary).drop 2,
          row.head? ≠ some v := by
  have ht := tracks_loop parseFloat (records.take n) (wellKinded_take records n hk) s hs
  refine ⟨ht.keys, ?_, ?_, ?_, ?_⟩
  · intro h
    exact (ht.keys "").mp h (creditedSales_empty _)
  · intro v d hd
    have hne := (ht.keys v).mp (Finmap.mem_of_lookup_eq_some hd)
    have hp : d.Purchasers = purchasersOf s v := by simp [purchasersOf, hd]
    rw [hp, ht.purchasers v]
    cases hc : creditedSales (records.take n) v with
    | nil => exact absurd hc hne
    | cons r rs => exact ⟨r.UserID, by simp⟩
  · intro m s0 hmn h0 v hv
    exact loopFrom_invariant parseFloat (fun t => v ∈ t.summary)
      (fun t r t' ht' hst => step_keeps_key parseFloat v t t' r ht' hst)
      ((records.take n).drop m) s0 s hv
      (loop_take_split parseFloat records m n hmn s0 s h0 hs)
  · intro v hv
    have hnot : v ∉ s.summary := fun h => (ht.keys v).mp h hv
    refine ⟨Finmap.lookup_eq_none.mpr hnot, ?_⟩
    intro row hrow
    rw [buildTable_eq formatFloat order s.overall s.summary ho] at hrow
    simp only [List.drop_succ_cons, List.drop_zero, List.mem_map] at hrow
    obtain ⟨k, hk', rfl⟩ := hrow
    obtain ⟨d, hd⟩ := Finmap.mem_iff.mp ((ho.2 k).mp hk')
    simp only [rowOfKey, hd, dimensionRow, List.head?_cons, ne_eq, Option.some.injEq]
    intro hkv
    exact hnot (hkv ▸ (ho.2 k).mp hk')

/-- Witness of C17: the sample timeline after five events, when `U3` has been exposed to
`B` but only the sale of `U1`, credited to `A`, has been attributed: `B` has no
aggregate. -/
theorem summary_keys_are_the_credited_values_witness :
    WellKinded sampleTimeline ∧
      attributionLoop parseDecimal (sampleTimeline.take 5) = .ok sampleAfterFive ∧
      IsRangeOrder ["A"] sampleAfterFive.summary ∧
      creditedSales (sampleTimeline.take 5) "B" = [] ∧
      ((∀ v, v ∈ sampleAfterFive.summary ↔ creditedSales (sampleTimeline.take 5) v ≠ []) ∧
        "" ∉ sampleAfterFive.summary ∧
        (∀ v d, sampleAfterFive.summary.lookup v = some d → d.Purchasers.Nonempty) ∧
        (∀ (m : Nat) (s0 : LoopState ℚ), m ≤ 5 →
          attributionLoop parseDecimal (sampleTimeline.take m) = .ok s0 →
          ∀ v, v ∈ s0.summary → v ∈ sampleAfterFive.summary) ∧
        ∀ v, creditedSales (sampleTimeline.take 5) v = [] →
          sampleAfterFive.summary.lookup v = none ∧
          ∀ row ∈ (buildTable formatTwoDecimals ["A"] sampleAfterFive.overall
              sampleAfterFive.summary).drop 2,
            row.head? ≠ some v) :=
  ⟨wellKinded_sample, sampleAfterFive_spec, isRangeOrder_sampleAfterFive, by decide,
    summary_keys_are_the_credited_values parseDecimal formatTwoDecimals sampleTimeline 5
      sampleAfterFive ["A"] wellKinded_sample sampleAfterFive_spec
      isRangeOrder_sampleAfterFive⟩

/-- C18. A sale with a parseable amount whose user's recorded exposure is a non-empty
value `v` adds the user and the amount to `overall` and to the aggregate of `v`, which is
created empty first when absent, and leaves every other aggregate, the recorded exposures
and the unattributed counter as they are.  A user who buys under `A`, is then exposed to
`B` and buys again is a purchaser of both `A` and `B`. -/
theorem attributed_sale_credits_overall_and_its_dimension {α : Type} [Zero α] [Add α]
    (parseFloat : String → Option α) :
    (∀ (s : LoopState α) (r : Record) (a : α) (v : String), r.Typ = "sale" →
        parseFloat r.Value = some a → s.userLatestExposures.lookup r.UserID = some v →
        v ≠ "" →
        ∃ s', step parseFloat s r = .ok s' ∧
          s'.overall.Purchasers = insert r.UserID s.overall.Purchasers ∧
          s'.overall.TotalSales = s.overall.TotalSales + a ∧
          s'.overall.Value = s.overall.Value ∧
          purchasersOf s' v = insert r.UserID (purchasersOf s v) ∧
          totalOf s' v = totalOf s v + a ∧
          (s.summary.lookup v = none →
            s'.summary.lookup v =
              some { Value := v, Purchasers := {r.UserID}, TotalSales := 0 + a }) ∧
          (∀ d, s.summary.lookup v = some d →
            s'.summary.lookup v =
              some { Value := d.Value, Purchasers := insert r.UserID d.Purchasers,
                     TotalSales := d.TotalSales + a }) ∧
          (∀ w, w ≠ v → s'.summary.lookup w = s.summary.lookup w) ∧
          s'.userLatestExposures = s.userLatestExposures ∧
          s'.noAdSalesCount = s.noAdSalesCount) ∧
      ∀ (t : LoopState α) (r1 e r2 : Record) (a1 a2 : α) (A B : String),
        r1.Typ = "sale" → e.Typ = "exposure" → r2.Typ = "sale" →
        r1.UserID = e.UserID → r2.UserID = e.UserID →
        parseFloat r1.Value = some a1 → parseFloat r2.Value = some a2 →
        t.userLatestExposures.lookup e.UserID = some A → A ≠ "" →
        e.Value = B → B ≠ "" →
        ∃ t1 t2 t3, step parseFloat t r1 = .ok t1 ∧ step parseFloat t1 e = .ok t2 ∧
          step parseFloat t2 r2 = .ok t3 ∧
          e.UserID ∈ purchasersOf t3 A ∧ e.UserID ∈ purchasersOf t3 B := by
  refine ⟨?_, ?_⟩
  · intro s r a v hr hp hl hv
    refine ⟨_, step_credit parseFloat s r a v hr hp hl hv, rfl, rfl, rfl, ?_, ?_, ?_, ?_, ?_,
      rfl, rfl⟩
    · simp [purchasersOf, Finmap.lookup_insert]
    · simp [totalOf, Finmap.lookup_insert]
    · intro hnone
      simp [Finmap.lookup_insert, fetchOrCreate, purchasersOf, totalOf, hnone]
    · intro d hd
      simp [Finmap.lookup_insert, fetchOrCreate, purchasersOf, totalOf, hd]
    · intro w hw
      exact Finmap.lookup_insert_of_ne _ hw
  · intro t r1 e r2 a1 a2 A B hr1 he hr2 hu1 hu2 hp1 hp2 hA hAne hB hBne
    have h1 := step_credit parseFloat t r1 a1 A hr1 hp1 (by rw [hu1]; exact hA) hAne
    have h2 := step_exposure parseFloat
      { t with
        overall :=
          { t.overall with
            TotalSales := t.overall.TotalSales + a1
            Purchasers := insert r1.UserID t.overall.Purchasers }
        summary :=
          t.summary.insert A
            { fetchOrCreate t.summary A with
              Purchasers := insert r1.UserID (purchasersOf t A)
              TotalSales := totalOf t A + a1 } } e he
    have h3 := step_credit parseFloat
      { t with
        overall :=
          { t.overall with
            TotalSales := t.overall.TotalSales + a1
            Purchasers := insert r1.UserID t.overall.Purchasers }
        summary :=
          t.summary.insert A
            { fetchOrCreate t.summary A with
              Purchasers := insert r1.UserID (purchasersOf t A)
              TotalSales := totalOf t A + a1 }
        userLatestExposures := t.userLatestExposures.insert e.UserID e.Value } r2 a2 B hr2 hp2
        (by rw [hu2, ← hB]; exact Finmap.lookup_insert _) hBne
    refine ⟨_, _, _, h1, h2, h3, ?_, ?_⟩
    · by_cases hAB : A = B
      · subst hAB
        simp [purchasersOf, Finmap.lookup_insert, hu2]
      · simp [purchasersOf, Finmap.lookup_insert_of_ne _ hAB, Finmap.lookup_insert, hu1]
    · simp [purchasersOf, Finmap.lookup_insert, hu2]

/-- Witness of C18: `U2`, last exposed to `A`, buys for 30, is exposed to `B` and buys
again. -/
theorem attributed_sale_credits_overall_and_its_dimension_witness :
    saleU2.Typ = "sale" ∧ parseDecimal saleU2.Value = some 30 ∧
      stateU2A.userLatestExposures.lookup saleU2.UserID = some "A" ∧
      (∃ s', step parseDecimal stateU2A saleU2 = .ok s' ∧
        s'.overall.Purchasers = insert saleU2.UserID stateU2A.overall.Purchasers ∧
        s'.overall.TotalSales = stateU2A.overall.TotalSales + 30 ∧
        s'.overall.Value = stateU2A.overall.Value ∧
        purchasersOf s' "A" = insert saleU2.UserID (purchasersOf stateU2A "A") ∧
        totalOf s' "A" = totalOf stateU2A "A" + 30 ∧
        (stateU2A.summary.lookup "A" = none →
          s'.summary.lookup "A" =
            some { Value := "A", Purchasers := {saleU2.UserID}, TotalSales := 0 + 30 }) ∧
        (∀ d, stateU2A.summary.lookup "A" = some d →
          s'.summary.lookup "A" =
            some { Value := d.Value, Purchasers := insert saleU2.UserID d.Purchasers,
                   TotalSales := d.TotalSales + 30 }) ∧
        (∀ w, w ≠ "A" → s'.summary.lookup w = stateU2A.summary.lookup w) ∧
        s'.userLatestExposures = stateU2A.userLatestExposures ∧
        s'.noAdSalesCount = stateU2A.noAdSalesCount) ∧
      ∃ t1 t2 t3, step parseDecimal stateU2A saleU2 = .ok t1 ∧
        step parseDecimal t1 exposureU2B = .ok t2 ∧ step parseDecimal t2 saleU2 = .ok t3 ∧
        exposureU2B.UserID ∈ purchasersOf t3 "A" ∧ exposureU2B.UserID ∈ purchasersOf t3 "B" :=
  ⟨rfl, parseDecimal_sample_30, by decide,
    (attributed_sale_credits_overall_and_its_dimension parseDecimal).1 stateU2A saleU2 30 "A"
      rfl parseDecimal_sample_30 (by decide) (by decide),
    (attributed_sale_credits_overall_and_its_dimension parseDecimal).2 stateU2A saleU2
      exposureU2B saleU2 30 30 "A" "B" rfl rfl rfl rfl rfl parseDecimal_sample_30
      parseDecimal_sample_30 (by decide) (by decide) rfl (by decide)⟩

/-- C11, counterexample.  The amount `-5.00` parses; the run over `negativeFiles` succeeds
and reports the aggregates, with `-5.00` added to the totals of `overall` and of `A`. -/
theorem negative_amount_is_accepted :
    negativeLib.parseFloat "-5.00" = some (-5) ∧
      (run negativeLib).failure = none ∧ (run negativeLib).created = true ∧
      (run negativeLib).out =
        [ ["dimension", "value", "num_purchases", "total_sales"],
          ["overall", "overall", "1", "-5.00"],
          ["A", "A", "1", "-5.00"] ] :=
  ⟨by decide!, by decide!, by decide!, by decide!⟩

/-- C11, amended.  A timeline of exposures and sales with a sale whose amount
`strconv.ParseFloat` rejects makes the run fail with the error of `ParseFloat` for a
rejected amount of the timeline, with no row built and no file created; a timeline of
exposures and sales whose amounts all parse passes the loop, whatever their signs; and an
attributed sale with a parsed amount `a`, negative or not, is accepted and turns the
totals of `overall` and of the credited value into the old total plus `a`. -/
theorem bad_amount_fails_and_parsed_amount_is_added {α : Type} [Zero α] [Add α]
    (lib : Lib α) :
    (∀ records : List Record, WellKinded records →
        (∃ r ∈ records, r.Typ = "sale" ∧ lib.parseFloat r.Value = none) →
        ∃ r ∈ records, r.Typ = "sale" ∧ lib.parseFloat r.Value = none ∧
          runTimeline lib records =
            { failure := some (Failure.parseFloatError r.Value), out := [],
              created := false, written := [] }) ∧
      (∀ records : List Record, WellKinded records →
        (∀ r ∈ records, r.Typ = "sale" → ∃ a, lib.parseFloat r.Value = some a) →
        ∃ s, attributionLoop lib.parseFloat records = .ok s) ∧
      ∀ (s : LoopState α) (r : Record) (a : α) (v : String), r.Typ = "sale" →
        lib.parseFloat r.Value = some a →
        s.userLatestExposures.lookup r.UserID = some v → v ≠ "" →
        ∃ s', step lib.parseFloat s r = .ok s' ∧
          s'.overall.TotalSales = s.overall.TotalSales + a ∧
          totalOf s' v = totalOf s v + a := by
  refine ⟨?_, ?_, ?_⟩
  · rintro records hk ⟨r, hr, hsale, hp⟩
    obtain ⟨r', hr', hne', hp', hl⟩ := loopFrom_error_of_bad_amount lib.parseFloat records
      initState ⟨r, hr, sale_ne_exposure r hsale, hp⟩
    refine ⟨r', hr', (hk r' hr').resolve_left hne', hp', ?_⟩
    simp [runTimeline, attributionLoop, hl, Outcome.early]
  · intro records hk hp
    refine loop_succeeds lib.parseFloat records hk ?_
    intro r hr hsale
    obtain ⟨a, ha⟩ := hp r hr hsale
    rw [ha]; rfl
  · intro s r a v hr hp hl hv
    refine ⟨_, step_credit lib.parseFloat s r a v hr hp hl hv, rfl, ?_⟩
    simp [totalOf, Finmap.lookup_insert]

/-- Witness of C11, amended: in `badTimeline` the amount `abc` is rejected; `U2`, last
exposed to `A`, has a sale of `-5.00`, which is added to the totals of `overall` and of
`A`, both `0` before. -/
theorem bad_amount_fails_and_parsed_amount_is_added_witness :
    WellKinded badTimeline ∧
      (∃ r ∈ badTimeline, r.Typ = "sale" ∧ badLib.parseFloat r.Value = none) ∧
      (∃ r ∈ badTimeline, r.Typ = "sale" ∧ badLib.parseFloat r.Value = none ∧
        runTimeline badLib badTimeline =
          { failure := some (Failure.parseFloatError r.Value), out := [],
            created := false, written := [] }) ∧
      refundU2.Typ = "sale" ∧ badLib.parseFloat refundU2.Value = some (-5) ∧
      stateU2A.userLatestExposures.lookup refundU2.UserID = some "A" ∧
      stateU2A.overall.TotalSales = 0 ∧ totalOf stateU2A "A" = 0 ∧
      ∃ s', step badLib.parseFloat stateU2A refundU2 = .ok s' ∧
        s'.overall.TotalSales = stateU2A.overall.TotalSales + (-5) ∧
        totalOf s' "A" = totalOf stateU2A "A" + (-5) :=
  ⟨wellKinded_bad, by decide!,
    (bad_amount_fails_and_parsed_amount_is_added badLib).1 badTimeline wellKinded_bad
      (by decide!),
    rfl, by decide!, by decide, by decide!, by decide!,
    (bad_amount_fails_and_parsed_amount_is_added badLib).2.2 stateU2A refundU2 (-5) "A" rfl
      (by decide!) (by decide) (by decide)⟩

/-- C16, counterexample.  The amount text `NaN` is accepted, the run succeeds, and the
`total_sales` fields of the row of `overall` and of the row of `A` are the text `NaN`,
which has no decimal point at all and is no numeral with two decimals. -/
theorem nan_amount_is_rendered_without_decimals :
    nanLib.parseFloat "NaN" = some GoFloat64.nan ∧
      (run nanLib).failure = none ∧
      (run nanLib).out =
        [ ["dimension", "value", "num_purchases", "total_sales"],
          ["overall", "overall", "1", "NaN"],
          ["A", "A", "1", "NaN"] ] ∧
      '.' ∉ "NaN".toList ∧ twoDecimalValue "NaN" = none :=
  ⟨by decide!, by decide!, by decide!, by decide, by decide⟩

/-- C16, amended.  Let `strconv.FormatFloat(x, 'f', 2, 64)` write what `formatGoFloat`
writes for the value of `x`.  When the run over a timeline succeeds, the table has the
header, the row of `overall` and one row per key of `summary`, and the `total_sales` field
of the row of `overall` and of the row of every key is `FormatFloat` of the total
accumulated in that aggregate: when that total is a finite number `q`, a decimal numeral
with exactly two digits after the decimal point that writes `q` rounded to two decimal
places; when it is NaN or an infinity, no such numeral. -/
theorem total_sales_field_is_two_decimal_rounding {α : Type} [Zero α] [Add α] (lib : Lib α)
    (value : α → GoFloat64) (records : List Record)
    (ho : ∀ m, IsRangeOrder (lib.rangeOrder m) m)
    (hfmt : ∀ x, lib.formatFloat x = formatGoFloat (value x))
    (hf : (runTimeline lib records).failure = none) :
    ∃ s, attributionLoop lib.parseFloat records = .ok s ∧
      (runTimeline lib records).out.length = (lib.rangeOrder s.summary).length + 2 ∧
      (∃ text, ((runTimeline lib records).out[1]?).bind (fun row => row[3]?) = some text ∧
        text = lib.formatFloat s.overall.TotalSales ∧
        (∀ q, value s.overall.TotalSales = GoFloat64.finite q →
          IsTwoDecimalRounding q text) ∧
        ((∀ q, value s.overall.TotalSales ≠ GoFloat64.finite q) →
          twoDecimalValue text = none)) ∧
      ∀ (i : Nat) (k : String), (lib.rangeOrder s.summary)[i]? = some k →
        k ∈ s.summary ∧
        ((runTimeline lib records).out[i + 2]?).bind (fun row => row[0]?) = some k ∧
        ∃ text,
          ((runTimeline lib records).out[i + 2]?).bind (fun row => row[3]?) = some text ∧
          text = lib.formatFloat (totalOf s k) ∧
          (∀ q, value (totalOf s k) = GoFloat64.finite q → IsTwoDecimalRounding q text) ∧
          ((∀ q, value (totalOf s k) ≠ GoFloat64.finite q) →
            twoDecimalValue text = none) := by
  obtain ⟨s, hs, hout⟩ := runTimeline_of_success lib records hf
  refine ⟨s, hs, ?_⟩
  rw [hout, buildTable_eq lib.formatFloat _ s.overall s.summary (ho s.summary)]
  refine ⟨by simp, ⟨_, by simp [overallRow], rfl, ?_, ?_⟩, ?_⟩
  · rw [hfmt]; exact (formatGoFloat_spec _).1
  · rw [hfmt]; exact (formatGoFloat_spec _).2
  · intro i k hi
    have hk : k ∈ s.summary := ((ho s.summary).2 k).mp (List.getElem?_mem hi)
    obtain ⟨d, hd⟩ := Finmap.mem_iff.mp hk
    refine ⟨hk, ?_, lib.formatFloat (totalOf s k), ?_, rfl, ?_, ?_⟩
    · simp [List.getElem?_cons_succ, List.getElem?_map, hi, rowOfKey, hd, dimensionRow]
    · simp [List.getElem?_cons_succ, List.getElem?_map, hi, rowOfKey, hd, dimensionRow,
        totalOf]
    · rw [hfmt]; exact (formatGoFloat_spec _).1
    · rw [hfmt]; exact (formatGoFloat_spec _).2

/-- Witness of C16, amended: the totals of `overall` and of `A` are an eighth, written
`0.12`, the tie going to the even digit. -/
theorem total_sales_field_is_two_decimal_rounding_witness :
    (∀ m, IsRangeOrder (floatLib.rangeOrder m) m) ∧
      (∀ x, floatLib.formatFloat x = formatGoFloat (id x)) ∧
      (runTimeline floatLib halfCentTimeline).failure = none ∧
      (runTimeline floatLib halfCentTimeline).out =
        [ ["dimension", "value", "num_purchases", "total_sales"],
          ["overall", "overall", "1", "0.12"],
          ["A", "A", "1", "0.12"] ] ∧
      twoDecimalValue "0.12" = some (3 / 25) ∧
      ∃ s, attributionLoop floatLib.parseFloat halfCentTimeline = .ok s ∧
        (runTimeline floatLib halfCentTimeline).out.length =
          (floatLib.rangeOrder s.summary).length + 2 ∧
        (∃ text,
          ((runTimeline floatLib halfCentTimeline).out[1]?).bind (fun row => row[3]?) =
            some text ∧
          text = floatLib.formatFloat s.overall.TotalSales ∧
          (∀ q, id s.overall.TotalSales = GoFloat64.finite q →
            IsTwoDecimalRounding q text) ∧
          ((∀ q, id s.overall.TotalSales ≠ GoFloat64.finite q) →
            twoDecimalValue text = none)) ∧
        ∀ (i : Nat) (k : String), (floatLib.rangeOrder s.summary)[i]? = some k →
          k ∈ s.summary ∧
          ((runTimeline floatLib halfCentTimeline).out[i + 2]?).bind (fun row => row[0]?) =
            some k ∧
          ∃ text,
            ((runTimeline floatLib halfCentTimeline).out[i + 2]?).bind (fun row => row[3]?) =
              some text ∧
            text = floatLib.formatFloat (totalOf s k) ∧
            (∀ q, id (totalOf s k) = GoFloat64.finite q → IsTwoDecimalRounding q text) ∧
            ((∀ q, id (totalOf s k) ≠ GoFloat64.finite q) →
              twoDecimalValue text = none) :=
  ⟨fun m => isRangeOrder_sort m, fun _ => rfl, by decide!, by decide!, by decide!,
    total_sales_field_is_two_decimal_rounding floatLib id halfCentTimeline
      (fun m => isRangeOrder_sort m) (fun _ => rfl) (by decide!)⟩

end Attributer
